import Mathlib

/-!
Verification model of the archetype/table storage core of the `bevy_ecs`
crate in this repository (crates/bevy_ecs/src/{archetype,bundle,storage/table,
world/entity_ref,component/mod}.rs).

Conventions of the shallow embedding:
* Rust `Vec<T>` becomes `List T`; `Vec::swap_remove` becomes `swapRemoveList`.
* Machine integers (`usize`, `u32`) become `Nat`; none of the modelled code
  paths rely on overflow.
* Type-erased payloads (`*mut u8` cells of a `BlobVec`) become `Option Val`
  cells, where `none` is an allocated-but-unwritten cell (`push_uninit` /
  `set_len` grow columns without writing) and `some v` a written value.
  `BlobVec` itself is not part of the given sources (only `storage/table.rs`
  is), so the cell-level operations are modelled from the spec's section 4.3.
* Hash maps keyed by slot lists (`Tables::table_ids`, `Archetypes::
  archetype_ids`, `Bundles::bundle_ids`) become association lists keyed by the
  list itself; the source keys by a hash of the same data.
* Entities are represented by their `id` field (a `Nat`); the generational
  allocator (`entity.rs`, not in the given sources) is modelled from the spec
  as the `meta : List (Option EntityLocation)` vector of live locations,
  mirroring `entities.meta[entity.id as usize].location`.
* The `edges` caches on archetypes memoize `add_bundle_to_archetype` /
  `remove_bundle_from_archetype`; the model computes the memoized function
  directly (the cache is pure memoization keyed by `BundleId`, and archetype
  slot sets are immutable after construction).
-/

namespace BevyEcs

/-- Entity handle, represented by its `id` field (generations are handled by
the allocator, which is outside the given sources). -/
abbrev Entity := Nat

/-- Dense integer id of a relation kind (`RelationKindId` in the source). -/
abbrev RelationKindId := Nat

/-- A slot `(RelationKindId, Option<Entity>)`: a column position within an
archetype or table. (Fields are spelled `Nat` rather than through the
abbreviations so arithmetic automation sees them directly.) -/
structure Slot where
  kind : Nat
  target : Option Nat
deriving DecidableEq

instance : Inhabited Slot := ⟨⟨0, none⟩⟩

/-- Storage class of a relation kind (`StorageType` in `component/mod.rs`). -/
inductive StorageType where
  | table
  | sparseSet
deriving DecidableEq

/-- Change-detection metadata per cell (`ComponentTicks`). -/
structure ComponentTicks where
  added : Nat
  changed : Nat
deriving DecidableEq

/-- Mirrors `ComponentTicks::new(change_tick)`: both ticks start at the given
tick. -/
def ComponentTicks.new (t : Nat) : ComponentTicks := ⟨t, t⟩

instance : Inhabited ComponentTicks := ⟨ComponentTicks.new 0⟩

/-- Opaque component payload value. -/
abbrev Val := Nat

/-- Mirrors `Vec::swap_remove(i)`: the element at `i` is replaced by the last
element and the vector shrinks by one. (For the in-bounds uses in the source;
`Vec::swap_remove` panics out of bounds.) -/
def swapRemoveList (l : List α) (i : Nat) : List α :=
  match l.getLast? with
  | none => []
  | some last => (l.set i last).dropLast

/-- Ordering on slots mirroring the derived lexicographic `Ord` on
`(RelationKindId, Option<Entity>)` (`None < Some`, ids by value). -/
def Slot.leb (a b : Slot) : Bool :=
  if a.kind < b.kind then true
  else if b.kind < a.kind then false
  else
    match a.target, b.target with
    | none, _ => true
    | some _, none => false
    | some x, some y => x ≤ y

/-- Propositional form of `Slot.leb`. -/
def Slot.le (a b : Slot) : Prop := Slot.leb a b = true

instance : DecidableRel Slot.le :=
  fun a b => inferInstanceAs (Decidable (Slot.leb a b = true))

/-- Strict comparison used by `sorted_remove`'s `*value > remove[ri]` test
(`Slot.ltb r v` is `v > r`, i.e. not `v ≤ r`). -/
def Slot.ltb (a b : Slot) : Bool := ! Slot.leb b a

instance : IsTotal Slot Slot.le := by
  constructor
  intro a b
  rcases a with ⟨ka, ta⟩
  rcases b with ⟨kb, tb⟩
  simp only [Slot.le, Slot.leb]
  rcases ta with _ | x <;> rcases tb with _ | y <;> split_ifs <;> simp_all <;> omega

instance : IsTrans Slot Slot.le := by
  constructor
  intro a b c hab hbc
  rcases a with ⟨ka, ta⟩
  rcases b with ⟨kb, tb⟩
  rcases c with ⟨kc, tc⟩
  simp only [Slot.le, Slot.leb] at *
  rcases ta with _ | x <;> rcases tb with _ | y <;> rcases tc with _ | z <;>
    split_ifs at * <;> simp_all <;> omega

/-- Mirrors `Vec::sort` on slot vectors: sorting by the derived lexicographic
order (the source uses a stable mergesort; only the sorted result matters). -/
def sortSlots (l : List Slot) : List Slot := l.insertionSort Slot.le

/-- The advancing `remove_index` of `sorted_remove`'s retain closure:
`while remove_index < remove.len() && *value > remove[remove_index]`. -/
def advanceIdx (remove : List Slot) (v : Slot) (ri : Nat) : Nat :=
  if h : ri < remove.length ∧ Slot.ltb (remove.getD ri default) v = true then
    advanceIdx remove v (ri + 1)
  else ri
termination_by remove.length - ri
decreasing_by
  omega

/-- Body of `sorted_remove`'s `retain` walk (entity_ref.rs `sorted_remove`). -/
def sortedRemoveGo (remove : List Slot) : List Slot → Nat → List Slot
  | [], _ => []
  | v :: rest, ri =>
    let ri' := advanceIdx remove v ri
    if ri' < remove.length then
      if v = remove.getD ri' default then sortedRemoveGo remove rest ri'
      else v :: sortedRemoveGo remove rest ri'
    else v :: sortedRemoveGo remove rest ri'

/-- Mirrors `sorted_remove(source, remove)` from `world/entity_ref.rs`: retain
the elements of `source` not present in the sorted list `remove`, walking both
sorted lists in one pass. -/
def sortedRemove (source : List Slot) (remove : List Slot) : List Slot :=
  sortedRemoveGo remove source 0

/-- Mirrors `BlobVec::set_len(n)` on a column's data (storage/table.rs
`Table::allocate` uses it to grow each column by one uninitialized cell;
`BlobVec` itself is outside the given sources, so the cell-level effect is
modelled from spec section 4.3: the length is set, new cells are unwritten). -/
def setLenCells (l : List (Option Val)) (n : Nat) : List (Option Val) :=
  if n ≤ l.length then l.take n else l ++ List.replicate (n - l.length) none

/-- A column: a `BlobVec` of cells plus a parallel vector of change ticks
(`Column` in storage/table.rs). -/
structure Column where
  relationship : Slot
  data : List (Option Val)
  ticks : List ComponentTicks
deriving DecidableEq

instance : Inhabited Column := ⟨⟨default, [], []⟩⟩

/-- Mirrors `Column::with_capacity` (fresh, empty column for a slot; capacity
is allocation detail with no observable content). -/
def Column.withCapacity (s : Slot) : Column := ⟨s, [], []⟩

/-- Mirrors `Column::swap_remove_unchecked(row)`: drop the value and remove
the tick at `row` by swap-removal. -/
def Column.swapRemoveUnchecked (c : Column) (row : Nat) : Column :=
  { c with data := swapRemoveList c.data row, ticks := swapRemoveList c.ticks row }

/-- Mirrors `Column::swap_remove_and_forget_unchecked(row)`: hand back the
cell and tick at `row` and swap-remove both. -/
def Column.swapRemoveAndForgetUnchecked (c : Column) (row : Nat) :
    (Option Val × ComponentTicks) × Column :=
  ((c.data.getD row none, c.ticks.getD row default),
   { c with data := swapRemoveList c.data row, ticks := swapRemoveList c.ticks row })

/-- Modelled from the spec: `Column::initialize/replace` live in code not under
the given sources; per spec sections 4.4/4.5 and the `AddBundle` contract, an
Added slot is written with both ticks set to the insertion tick. -/
def Column.initCell (c : Column) (row : Nat) (v : Val) (t : ComponentTicks) : Column :=
  { c with data := c.data.set row (some v), ticks := c.ticks.set row t }

/-- Modelled from the spec: a Mutated slot is overwritten in place (old value
dropped) and only its changed tick is stamped. -/
def Column.replace (c : Column) (row : Nat) (v : Val) (changeTick : Nat) : Column :=
  { c with data := c.data.set row (some v),
           ticks := c.ticks.set row { (c.ticks.getD row default) with changed := changeTick } }

/-- Result of the cross-table row moves (`TableMoveResult`). -/
structure TableMoveResult where
  swappedEntity : Option Entity
  newRow : Nat
deriving DecidableEq

/-- A table: columns sharing one entity-row layout (`Table` in
storage/table.rs). The source stores columns in a two-level map keyed by
relation kind then target; the model flattens this to a list looked up by the
column's `(kind, target)` slot. -/
structure Table where
  columns : List Column
  entities : List Entity
  archetypes : List Nat
  growAmount : Nat
  capacity : Nat
deriving DecidableEq

instance : Inhabited Table := ⟨⟨[], [], [], 64, 0⟩⟩

/-- Mirrors `Table::get_column(kind, target)`. -/
def Table.getColumn (t : Table) (s : Slot) : Option Column :=
  t.columns.find? (fun c => c.relationship = s)

/-- Mirrors `Table::has_column`. -/
def Table.hasColumn (t : Table) (s : Slot) : Bool :=
  (t.getColumn s).isSome

/-- Point update of the column at a slot (the model's counterpart of holding
`get_column_mut`); under the source's keying a slot names at most one column. -/
def Table.updateColumn (t : Table) (s : Slot) (f : Column → Column) : Table :=
  { t with columns := t.columns.map (fun c => if c.relationship = s then f c else c) }

/-- Mirrors `Table::reserve(amount)`: grow capacity to the next multiple of
`grow_amount` when the free space is insufficient (column/entity reserves
change no observable content). -/
def Table.reserve (t : Table) (amount : Nat) : Table :=
  let availableSpace := t.capacity - t.entities.length
  if availableSpace < amount then
    let minCapacity := t.entities.length + amount
    let newCapacity := ((minCapacity + t.growAmount - 1) / t.growAmount) * t.growAmount
    { t with capacity := newCapacity }
  else t

/-- Mirrors `Table::allocate(entity)`: reserve one slot, push the entity, and
grow every column by one uninitialized cell and one zero tick. Returns the new
row index. -/
def Table.allocate (t : Table) (e : Entity) : Nat × Table :=
  let t := t.reserve 1
  let index := t.entities.length
  (index,
   { t with entities := t.entities ++ [e],
            columns := t.columns.map (fun c =>
              { c with data := setLenCells c.data (index + 1),
                       ticks := c.ticks ++ [ComponentTicks.new 0] }) })

/-- Mirrors `Table::swap_remove_unchecked(row)`: swap-remove the row from
every column and from the entity list; returns the entity swapped into `row`
(if any). -/
def Table.swapRemoveUnchecked (t : Table) (row : Nat) : Option Entity × Table :=
  let columns := t.columns.map (fun c => c.swapRemoveUnchecked row)
  let isLast := row = t.entities.length - 1
  let entities := swapRemoveList t.entities row
  (if isLast then none else entities.get? row,
   { t with columns := columns, entities := entities })

/-- The per-column body shared by the cross-table moves: take the cell and
tick out of the source column and, when the destination has a matching
column, write them at `new_row` there. -/
def moveCellStep (row : Nat) (newRow : Nat) (newTable : Table) (c : Column) : Table :=
  let cell := c.data.getD row none
  let tick := c.ticks.getD row default
  if newTable.hasColumn c.relationship then
    newTable.updateColumn c.relationship (fun nc =>
      { nc with data := nc.data.set newRow cell, ticks := nc.ticks.set newRow tick })
  else newTable

/-- Mirrors `Table::move_to_and_forget_missing_unchecked(row, new_table)`:
allocate a row for the moved entity in the destination, move every shared
column's cell and ticks, swap-remove the source row everywhere. Cells of
columns missing from the destination are forgotten (ownership is the
caller's); in this value-level model forgetting and dropping a source cell
coincide, both leave no trace in either table. -/
def Table.moveToAndForgetMissingUnchecked (t : Table) (row : Nat) (newTable : Table) :
    TableMoveResult × Table × Table :=
  let isLast := row = t.entities.length - 1
  let movedEntity := t.entities.getD row 0
  let (newRow, newTable) := newTable.allocate movedEntity
  let newTable := t.columns.foldl (fun nt c => moveCellStep row newRow nt c) newTable
  let entities := swapRemoveList t.entities row
  let columns := t.columns.map (fun c => c.swapRemoveUnchecked row)
  (⟨if isLast then none else entities.get? row, newRow⟩,
   { t with columns := columns, entities := entities }, newTable)

/-- Mirrors `Table::move_to_and_drop_missing_unchecked(row, new_table)`: same
moves as the forget variant, but source cells with no destination column are
dropped in place via `swap_remove_unchecked`. At the value level the resulting
tables coincide with the forget variant (dropping is a memory effect); the
branch structure of the loop is kept. -/
def Table.moveToAndDropMissingUnchecked (t : Table) (row : Nat) (newTable : Table) :
    TableMoveResult × Table × Table :=
  let isLast := row = t.entities.length - 1
  let movedEntity := t.entities.getD row 0
  let (newRow, newTable) := newTable.allocate movedEntity
  let newTable := t.columns.foldl (fun nt c =>
    if nt.hasColumn c.relationship then moveCellStep row newRow nt c else nt) newTable
  let entities := swapRemoveList t.entities row
  let columns := t.columns.map (fun c => c.swapRemoveUnchecked row)
  (⟨if isLast then none else entities.get? row, newRow⟩,
   { t with columns := columns, entities := entities }, newTable)

/-- Mirrors `Table::move_to_superset_unchecked(row, new_table)`: requires the
destination to contain every source column; the `unwrap` on a missing
destination column is modelled as `none`. When every column is present the
loop writes exactly as the forget variant does. -/
def Table.moveToSupersetUnchecked (t : Table) (row : Nat) (newTable : Table) :
    Option (TableMoveResult × Table × Table) :=
  if t.columns.all (fun c => newTable.hasColumn c.relationship) then
    some (t.moveToAndForgetMissingUnchecked row newTable)
  else none

/-- The column-length invariant of spec invariant 3: every column's data and
ticks have exactly one entry per table row. -/
def Table.lenInvariant (t : Table) : Prop :=
  ∀ c ∈ t.columns,
    c.data.length = t.entities.length ∧ c.ticks.length = t.entities.length

instance (t : Table) : Decidable t.lenInvariant :=
  inferInstanceAs (Decidable (∀ c ∈ t.columns, _ ∧ _))

/-- The single-column table of the source's `table` test: `Table::
with_capacity(0, 1, 64)` plus one `add_column`. -/
def tableGrowStart : Table :=
  { columns := [Column.withCapacity ⟨0, none⟩], entities := [], archetypes := [],
    growAmount := 64, capacity := 0 }

/-- The grow scenario of the source's `table` test: insert entities `0..n` one
at a time (`allocate` then `set_unchecked` of the row value), recording the
capacity after every step. -/
def tableGrowTrace : Nat → Table × List Nat
  | 0 => (tableGrowStart, [tableGrowStart.capacity])
  | n + 1 =>
    let (t, caps) := tableGrowTrace n
    let (row, t') := t.allocate n
    let t'' := t'.updateColumn ⟨0, none⟩
      (fun c => { c with data := c.data.set row (some n) })
    (t'', caps ++ [t''.capacity])

/-- An entity's stored location (`EntityLocation`): archetype id and index in
that archetype's entity list. -/
structure EntityLocation where
  archetypeId : Nat
  index : Nat
deriving DecidableEq

instance : Inhabited EntityLocation := ⟨⟨0, 0⟩⟩

/-- Per-slot insertion status computed by `add_bundle_to_archetype`
(`ComponentStatus` in archetype.rs). -/
inductive ComponentStatus where
  | added
  | mutated
deriving DecidableEq

/-- Result of `Archetype::swap_remove` (`ArchetypeSwapRemoveResult`). -/
structure ArchetypeSwapRemoveResult where
  swappedEntity : Option Entity
  tableRow : Nat
deriving DecidableEq

/-- An archetype (archetype.rs `Archetype`). The `components`/`relations`
lookup maps are derived data over the two sorted slot lists and are modelled
by `Archetype.contains`/`Archetype.getStorageType`; the `edges` caches are
elided as memoization; `unique_components` (resource columns) is outside the
modelled claims. -/
structure Archetype where
  id : Nat
  entities : List Entity
  entityTableRows : List Nat
  tableId : Nat
  tableComponents : List Slot
  sparseSetComponents : List Slot
deriving DecidableEq

instance : Inhabited Archetype := ⟨⟨0, [], [], 0, [], []⟩⟩

/-- Mirrors `Archetype::new`: fresh archetype with no entities; the lookup
maps built there are recovered from the slot lists on demand. -/
def Archetype.new (id tableId : Nat) (tableComponents sparseSetComponents : List Slot) :
    Archetype :=
  { id := id, entities := [], entityTableRows := [], tableId := tableId,
    tableComponents := tableComponents, sparseSetComponents := sparseSetComponents }

/-- Mirrors `Archetype::contains(kind, target)`: the slot is present in the
archetype's component maps, which index exactly the two slot lists. -/
def Archetype.containsSlot (a : Archetype) (s : Slot) : Bool :=
  a.tableComponents.contains s || a.sparseSetComponents.contains s

/-- Mirrors `Archetype::get_storage_type(kind, target)`; a slot inserted from
`sparse_set_components` overwrites one from `table_components` in the source's
map construction, hence the sparse list is consulted first. -/
def Archetype.getStorageType (a : Archetype) (s : Slot) : Option StorageType :=
  if a.sparseSetComponents.contains s then some StorageType.sparseSet
  else if a.tableComponents.contains s then some StorageType.table
  else none

/-- Mirrors `Archetype::swap_remove(index)`: swap-remove the entity and its
table row; report the entity now occupying `index` (when `index` was not
last) and the removed entry's table row. -/
def Archetype.swapRemove (a : Archetype) (index : Nat) :
    ArchetypeSwapRemoveResult × Archetype :=
  let isLast := index = a.entities.length - 1
  let entities := swapRemoveList a.entities index
  (⟨if isLast then none else entities.get? index, a.entityTableRows.getD index 0⟩,
   { a with entities := entities, entityTableRows := swapRemoveList a.entityTableRows index })

/-- Mirrors `Archetype::allocate(entity, table_row)`: push the entity and its
table row; the new location is this archetype's id and the last index. -/
def Archetype.allocate (a : Archetype) (e : Entity) (tableRow : Nat) :
    EntityLocation × Archetype :=
  (⟨a.id, a.entities.length⟩,
   { a with entities := a.entities ++ [e],
            entityTableRows := a.entityTableRows ++ [tableRow] })

/-- Mirrors `Archetype::set_entity_table_row(index, table_row)`. -/
def Archetype.setEntityTableRow (a : Archetype) (index tableRow : Nat) : Archetype :=
  { a with entityTableRows := a.entityTableRows.set index tableRow }

/-- Iteration order of `Archetype::components()` flattened to a list: the
no-target slots (the `components` sparse set) then the target-bearing slots
(the `relations` map); within the model both come from the stored slot
lists. -/
def Archetype.componentsList (a : Archetype) : List Slot :=
  ((a.tableComponents ++ a.sparseSetComponents).filter (fun s => s.target = none)) ++
    ((a.tableComponents ++ a.sparseSetComponents).filter (fun s => s.target ≠ none))

/-- The archetype registry (archetype.rs `Archetypes`): the archetype list,
the identity map from the pair of sorted slot lists to an archetype id, and
the `ArchetypeComponentId` counter. The source keys the map by an
`ArchetypeIdentity` holding the same pair. -/
structure Archetypes where
  archetypes : List Archetype
  archetypeIds : List ((List Slot × List Slot) × Nat)
  archetypeComponentCount : Nat
deriving DecidableEq

/-- Mirrors `Archetypes::get_id_or_insert(table_id, table_components,
sparse_set_components)`: look the identity up; on a miss, append a fresh
archetype whose id is the current length and hand each of its slots a fresh
archetype-component id. -/
def Archetypes.getIdOrInsert (as : Archetypes) (tableId : Nat)
    (tableComponents sparseSetComponents : List Slot) : Nat × Archetypes :=
  let key := (tableComponents, sparseSetComponents)
  match as.archetypeIds.find? (fun kv => kv.1 = key) with
  | some kv => (kv.2, as)
  | none =>
    let id := as.archetypes.length
    (id,
     { archetypes := as.archetypes ++
         [Archetype.new id tableId tableComponents sparseSetComponents],
       archetypeIds := as.archetypeIds ++ [(key, id)],
       archetypeComponentCount := as.archetypeComponentCount +
         tableComponents.length + sparseSetComponents.length })

/-- Mirrors `Vec::dedup` on a slot vector: remove consecutive duplicates. -/
def dedupConsec : List Slot → List Slot
  | [] => []
  | [a] => [a]
  | a :: b :: rest =>
    if a = b then dedupConsec (b :: rest) else a :: dedupConsec (b :: rest)

/-- The component-kind registry as bundle registration sees it (component/
mod.rs): a map from static type tokens to dense kind ids, extended on first
sight. Type tokens (`TypeId`) are represented by `Nat`. -/
structure Components where
  typeIndices : List (Nat × Nat)
  count : Nat
deriving DecidableEq

/-- Mirrors `get_component_kind_or_insert` for a static type token: look the
token up; on a miss assign the next dense id. -/
def Components.getComponentKindOrInsert (cs : Components) (typeId : Nat) :
    Nat × Components :=
  match cs.typeIndices.find? (fun kv => kv.1 = typeId) with
  | some kv => (kv.2, cs)
  | none =>
    (cs.count,
     { typeIndices := cs.typeIndices ++ [(typeId, cs.count)], count := cs.count + 1 })

/-- Lookup of a type token's kind id in the registry. -/
def lookupType (cs : Components) (t : Nat) : Option Nat :=
  (cs.typeIndices.find? (fun kv => kv.1 = t)).map Prod.snd

/-- The per-type registration loop of `initialize_bundle`: register every type
token in order, collecting the kind ids. -/
def registerTypes (cs : Components) : List Nat → List Nat × Components
  | [] => ([], cs)
  | t :: rest =>
    ((cs.getComponentKindOrInsert t).1 ::
      (registerTypes (cs.getComponentKindOrInsert t).2 rest).1,
     (registerTypes (cs.getComponentKindOrInsert t).2 rest).2)

/-- A registered bundle's description (`BundleInfo`): its ordered slots and
their storage classes. The numeric `BundleId` only keys the memoization
caches and is elided. -/
structure BundleInfo where
  relationIds : List Slot
  storageTypes : List StorageType
deriving DecidableEq

/-- Mirrors `initialize_bundle` (bundle.rs): register each component type of a
static typed bundle, then reject the bundle if sorting and deduplicating the
slot list shrinks it — the source panics with "Bundle {} has duplicate
components"; the panic is modelled as `Except.error`. -/
def initBundle (cs : Components) (ks : Nat → StorageType) (typeInfo : List Nat) :
    Except String BundleInfo × Components :=
  let ids := (registerTypes cs typeInfo).1
  let cs' := (registerTypes cs typeInfo).2
  let componentIds : List Slot := ids.map (fun i => ⟨i, none⟩)
  let deduped := dedupConsec (sortSlots componentIds)
  if deduped.length ≠ componentIds.length then
    (Except.error "Bundle has duplicate components", cs')
  else
    (Except.ok { relationIds := componentIds, storageTypes := ids.map ks }, cs')

/-- One dense entry of a component sparse set. Modelled from the spec
(section 4.5): storage/sparse_set.rs is not among the given sources. -/
structure SparseSetEntry where
  entity : Entity
  value : Val
  ticks : ComponentTicks
deriving DecidableEq

/-- Modelled from the spec: a `ComponentSparseSet` keyed by entity. The dense
and sparse index arrays are represented by the entry list itself. -/
structure ComponentSparseSet where
  entries : List SparseSetEntry
deriving DecidableEq

/-- Modelled from the spec: `insert(entity, value, change_tick)` mutates in
place and stamps `changed` when the entity is present, otherwise appends and
stamps both ticks. -/
def ComponentSparseSet.insert (s : ComponentSparseSet) (e : Entity) (v : Val)
    (changeTick : Nat) : ComponentSparseSet :=
  if s.entries.any (fun en => en.entity = e) then
    ⟨s.entries.map (fun en =>
      if en.entity = e then { en with value := v, ticks := { en.ticks with changed := changeTick } }
      else en)⟩
  else ⟨s.entries ++ [⟨e, v, ComponentTicks.new changeTick⟩]⟩

/-- Modelled from the spec: `remove(entity)` deletes the entry (internal dense
order is not observable in the modelled claims). -/
def ComponentSparseSet.remove (s : ComponentSparseSet) (e : Entity) : ComponentSparseSet :=
  ⟨s.entries.filter (fun en => en.entity ≠ e)⟩

/-- Modelled from the spec: `remove_and_forget(entity)` hands the value back
and deletes the entry. -/
def ComponentSparseSet.removeAndForget (s : ComponentSparseSet) (e : Entity) :
    Option Val × ComponentSparseSet :=
  ((s.entries.find? (fun en => en.entity = e)).map (fun en => en.value),
   ⟨s.entries.filter (fun en => en.entity ≠ e)⟩)

/-- The `SparseSets` collection, keyed by slot. -/
abbrev SparseSets := List (Slot × ComponentSparseSet)

/-- Mirrors `SparseSets::get_or_insert` (used while classifying Added sparse
slots in `add_bundle_to_archetype`). -/
def sparseSetsGetOrInsert (ss : SparseSets) (s : Slot) : SparseSets :=
  if (ss.find? (fun kv => kv.1 = s)).isSome then ss else ss ++ [(s, ⟨[]⟩)]

/-- Insert through `sparse_sets.get_mut(kind, target).unwrap()`; the unwrap's
panic cannot fire on the modelled paths because the set was created when the
slot went Added. -/
def sparseSetsInsert (ss : SparseSets) (s : Slot) (e : Entity) (v : Val)
    (changeTick : Nat) : SparseSets :=
  ss.map (fun kv => if kv.1 = s then (kv.1, kv.2.insert e v changeTick) else kv)

/-- Removal through `sparse_sets.get_mut(kind, target).unwrap().remove`. -/
def sparseSetsRemove (ss : SparseSets) (s : Slot) (e : Entity) : SparseSets :=
  ss.map (fun kv => if kv.1 = s then (kv.1, kv.2.remove e) else kv)

/-- Removal-with-value through `remove_and_forget`. -/
def sparseSetsRemoveAndForget (ss : SparseSets) (s : Slot) (e : Entity) :
    Option Val × SparseSets :=
  match ss.find? (fun kv => kv.1 = s) with
  | none => (none, ss)
  | some kv =>
    let (v, set') := kv.2.removeAndForget e
    (v, ss.map (fun kv' => if kv'.1 = s then (kv'.1, set') else kv'))

/-- The storage arena (`Storages`): tables with their identity map, and the
sparse sets. -/
structure Storages where
  tables : List Table
  tableIds : List (List Slot × Nat)
  sparseSets : SparseSets

/-- Mirrors `Tables::get_id_or_insert(component_ids, components)`: look the
slot list up (the source hashes it); on a miss push a fresh table with one
column per slot, `grow_amount` 64 and capacity 0. -/
def Storages.tablesGetIdOrInsert (st : Storages) (componentIds : List Slot) :
    Nat × Storages :=
  match st.tableIds.find? (fun kv => kv.1 = componentIds) with
  | some kv => (kv.2, st)
  | none =>
    let table : Table :=
      { columns := componentIds.map Column.withCapacity, entities := [],
        archetypes := [], growAmount := 64, capacity := 0 }
    (st.tables.length,
     { st with tables := st.tables ++ [table],
               tableIds := st.tableIds ++ [(componentIds, st.tables.length)] })

/-- The world state the modelled claims touch: archetype registry, storages,
the storage class each relation kind was registered with, the live-location
vector `entities.meta[id].location` (spec-modelled allocator), the flattened
removed-components log, and the change tick. -/
structure World where
  archetypes : Archetypes
  storages : Storages
  kindStorage : Nat → StorageType
  meta : List (Option EntityLocation)
  removed : List (Slot × Entity)
  changeTick : Nat

/-- Result of `add_bundle_to_archetype` (the `AddBundle` edge payload). -/
structure AddBundle where
  archetypeId : Nat
  bundleStatus : List ComponentStatus
deriving DecidableEq

/-- The classification loop of `add_bundle_to_archetype`: a slot already on
the archetype is `Mutated`; a new slot is `Added` and goes to the new-table
or new-sparse list by its storage class (creating the sparse set). -/
def addBundleClassify (arch : Archetype) (ks : Nat → StorageType) :
    List Slot → SparseSets → List ComponentStatus × List Slot × List Slot × SparseSets
  | [], ss => ([], [], [], ss)
  | s :: rest, ss =>
    if arch.containsSlot s then
      let (status, nt, nsp, ss') := addBundleClassify arch ks rest ss
      (ComponentStatus.mutated :: status, nt, nsp, ss')
    else
      match ks s.kind with
      | StorageType.table =>
        let (status, nt, nsp, ss') := addBundleClassify arch ks rest ss
        (ComponentStatus.added :: status, s :: nt, nsp, ss')
      | StorageType.sparseSet =>
        let (status, nt, nsp, ss') := addBundleClassify arch ks rest (sparseSetsGetOrInsert ss s)
        (ComponentStatus.added :: status, nt, s :: nsp, ss')

/-- Mirrors `add_bundle_to_archetype` (world/entity_ref.rs), with the edge
cache elided as memoization: classify the bundle's slots against the current
archetype; when nothing is new the archetype is unchanged, otherwise build
the extended sorted slot lists, find or create their table and archetype. -/
def addBundleToArchetype (as : Archetypes) (st : Storages) (ks : Nat → StorageType)
    (archetypeId : Nat) (b : BundleInfo) : AddBundle × Archetypes × Storages :=
  let arch := as.archetypes.getD archetypeId default
  let (bundleStatus, newTableComponents, newSparseSetComponents, sparseSets) :=
    addBundleClassify arch ks b.relationIds st.sparseSets
  let st := { st with sparseSets := sparseSets }
  if newTableComponents.isEmpty && newSparseSetComponents.isEmpty then
    (⟨archetypeId, bundleStatus⟩, as, st)
  else
    let (tableId, tableComponents, st) :=
      if newTableComponents.isEmpty then (arch.tableId, arch.tableComponents, st)
      else
        let full := sortSlots (newTableComponents ++ arch.tableComponents)
        let (tid, st') := st.tablesGetIdOrInsert full
        (tid, full, st')
    let sparseSetComponents :=
      if newSparseSetComponents.isEmpty then arch.sparseSetComponents
      else sortSlots (newSparseSetComponents ++ arch.sparseSetComponents)
    let (newId, as') := as.getIdOrInsert tableId tableComponents sparseSetComponents
    (⟨newId, bundleStatus⟩, as', st)

/-- The classification loop of `remove_bundle_from_archetype`: a slot on the
archetype joins the removed-table or removed-sparse list; a missing slot
fails a strict (non-intersection) removal with `None`. -/
def removeBundleClassify (arch : Archetype) (ks : Nat → StorageType)
    (intersection : Bool) : List Slot → Option (List Slot × List Slot)
  | [] => some ([], [])
  | s :: rest =>
    if arch.containsSlot s then
      (removeBundleClassify arch ks intersection rest).map (fun p =>
        match ks s.kind with
        | StorageType.table => (s :: p.1, p.2)
        | StorageType.sparseSet => (p.1, s :: p.2))
    else if !intersection then none
    else removeBundleClassify arch ks intersection rest

/-- Mirrors `remove_bundle_from_archetype` (world/entity_ref.rs), edge cache
elided: classify, sort the removed lists, subtract them from the archetype's
sorted lists with `sorted_remove`, reuse the table when no table slot was
removed, and find or create the destination archetype. A strict removal with
a missing slot returns `none` and changes nothing. -/
def removeBundleFromArchetype (as : Archetypes) (st : Storages)
    (ks : Nat → StorageType) (archetypeId : Nat) (b : BundleInfo)
    (intersection : Bool) : Option Nat × Archetypes × Storages :=
  let arch := as.archetypes.getD archetypeId default
  match removeBundleClassify arch ks intersection b.relationIds with
  | none => (none, as, st)
  | some removed =>
    let removedTableComponents := sortSlots removed.1
    let removedSparseSetComponents := sortSlots removed.2
    let nextTableComponents := sortedRemove arch.tableComponents removedTableComponents
    let nextSparseSetComponents :=
      sortedRemove arch.sparseSetComponents removedSparseSetComponents
    let (nextTableId, st) :=
      if removedTableComponents.isEmpty then (arch.tableId, st)
      else st.tablesGetIdOrInsert nextTableComponents
    let (newId, as') :=
      as.getIdOrInsert nextTableId nextTableComponents nextSparseSetComponents
    (some newId, as', st)

/-- Mirrors `BundleInfo::write_relation` (bundle.rs): write one bundle value
at its slot — a table slot goes through the column, `Added` initializing both
ticks and `Mutated` replacing in place stamping only `changed`; a sparse slot
goes through the sparse set's insert. -/
def writeRelation (b : BundleInfo) (sparseSets : SparseSets) (e : Entity)
    (table : Table) (tableRow : Nat) (bundleStatus : List ComponentStatus)
    (relationIndex : Nat) (v : Val) (changeTick : Nat) : Table × SparseSets :=
  let s := b.relationIds.getD relationIndex default
  match b.storageTypes.getD relationIndex StorageType.table with
  | StorageType.table =>
    (table.updateColumn s (fun column =>
      match bundleStatus.getD relationIndex ComponentStatus.added with
      | ComponentStatus.added => column.initCell tableRow v (ComponentTicks.new changeTick)
      | ComponentStatus.mutated => column.replace tableRow v changeTick),
     sparseSets)
  | StorageType.sparseSet => (table, sparseSetsInsert sparseSets s e v changeTick)

/-- Mirrors `BundleInfo::write_components`: stream the bundle's values in
bundle order, dispatching each to `write_relation` with its index. -/
def writeComponentsGo (b : BundleInfo) (e : Entity) (tableRow : Nat)
    (bundleStatus : List ComponentStatus) (changeTick : Nat) :
    List Val → Nat → Table × SparseSets → Table × SparseSets
  | [], _, acc => acc
  | v :: rest, i, (table, ss) =>
    writeComponentsGo b e tableRow bundleStatus changeTick rest (i + 1)
      (writeRelation b ss e table tableRow bundleStatus i v changeTick)

/-- Entry point of the value-writing pass (`write_components` with the bundle
counter starting at 0). -/
def writeComponents (b : BundleInfo) (e : Entity) (tableRow : Nat)
    (bundleStatus : List ComponentStatus) (changeTick : Nat) (values : List Val)
    (acc : Table × SparseSets) : Table × SparseSets :=
  writeComponentsGo b e tableRow bundleStatus changeTick values 0 acc

/-- Which of the three cross-table moves a structural transition uses:
`insert_bundle` moves to a superset table, strict `remove_bundle` forgets
missing columns (their values were extracted), `remove_bundle_intersection`
drops them. -/
inductive MoveKind where
  | forget
  | drop
  | superset

/-- Dispatch to the chosen table move; the superset variant's unwrap of a
missing destination column (impossible under its precondition) is modelled as
a junk no-move result. -/
def tableMoveDispatch (k : MoveKind) (t : Table) (row : Nat) (nt : Table) :
    TableMoveResult × Table × Table :=
  match k with
  | MoveKind.forget => t.moveToAndForgetMissingUnchecked row nt
  | MoveKind.drop => t.moveToAndDropMissingUnchecked row nt
  | MoveKind.superset =>
    match t.moveToSupersetUnchecked row nt with
    | some r => r
    | none => (⟨none, 0⟩, t, nt)

/-- The structural lines shared verbatim by `get_insert_bundle_info`,
`remove_bundle`, `remove_relation` and `remove_bundle_intersection` once the
destination archetype differs from the source: swap-remove the entity from
the source archetype and redirect the swapped entity's stored location to the
vacated spot; then either reuse the table row (same table) or move the row
across tables and redirect the table row of whichever entity was swapped into
the vacated table spot; allocate the entity in the destination archetype and
store its new location. -/
def structuralMove (w : World) (e : Entity) (oldLocation : EntityLocation)
    (newArchetypeId : Nat) (k : MoveKind) : EntityLocation × World :=
  let oldArch := w.archetypes.archetypes.getD oldLocation.archetypeId default
  let (removeResult, oldArch') := oldArch.swapRemove oldLocation.index
  let archetypeList := w.archetypes.archetypes.set oldLocation.archetypeId oldArch'
  let meta :=
    match removeResult.swappedEntity with
    | some se => w.meta.set se (some oldLocation)
    | none => w.meta
  let oldTableRow := removeResult.tableRow
  let oldTableId := oldArch'.tableId
  let newArch := archetypeList.getD newArchetypeId default
  if oldTableId = newArch.tableId then
    let (newLocation, newArch') := newArch.allocate e oldTableRow
    let archetypeList := archetypeList.set newArchetypeId newArch'
    let meta := meta.set e (some newLocation)
    (newLocation,
     { w with archetypes := { w.archetypes with archetypes := archetypeList },
              meta := meta })
  else
    let oldTable := w.storages.tables.getD oldTableId default
    let newTable := w.storages.tables.getD newArch.tableId default
    let (moveResult, oldTable', newTable') := tableMoveDispatch k oldTable oldTableRow newTable
    let tables := (w.storages.tables.set oldTableId oldTable').set newArch.tableId newTable'
    let (newLocation, newArch') := newArch.allocate e moveResult.newRow
    let archetypeList := archetypeList.set newArchetypeId newArch'
    let archetypeList :=
      match moveResult.swappedEntity with
      | some se =>
        match meta.getD se none with
        | some sl =>
          archetypeList.set sl.archetypeId
            ((archetypeList.getD sl.archetypeId default).setEntityTableRow sl.index oldTableRow)
        | none => archetypeList
      | none => archetypeList
    let meta := meta.set e (some newLocation)
    (newLocation,
     { w with archetypes := { w.archetypes with archetypes := archetypeList },
              storages := { w.storages with tables := tables },
              meta := meta })

/-- Mirrors `EntityMut::insert_bundle` (structural part `get_insert_bundle_
info`, then `write_components`): find or build the destination archetype;
when it differs from the source perform the structural move (the table move
is `move_to_superset_unchecked`); finally stream the bundle's values to the
destination row. `values` are the bundle's component payloads in bundle
order. -/
def insertBundle (w : World) (e : Entity) (location : EntityLocation)
    (b : BundleInfo) (values : List Val) : EntityLocation × World :=
  let changeTick := w.changeTick
  let (addBundle, archetypes', storages') :=
    addBundleToArchetype w.archetypes w.storages w.kindStorage location.archetypeId b
  let w := { w with archetypes := archetypes', storages := storages' }
  let (newLocation, w) :=
    if addBundle.archetypeId = location.archetypeId then (location, w)
    else structuralMove w e location addBundle.archetypeId MoveKind.superset
  let arch := w.archetypes.archetypes.getD newLocation.archetypeId default
  let tableRow := arch.entityTableRows.getD newLocation.index 0
  let table := w.storages.tables.getD arch.tableId default
  let (table', sparseSets') :=
    writeComponents b e tableRow addBundle.bundleStatus changeTick values
      (table, w.storages.sparseSets)
  (newLocation,
   { w with storages := { w.storages with
       tables := w.storages.tables.set arch.tableId table',
       sparseSets := sparseSets' } })

/-- Mirrors `take_entity_data`: append the entity to the removed-components
log for the slot, then hand the value out — reading the table cell in place
(the row is removed by the caller) or removing-and-forgetting from the sparse
set. -/
def takeEntityData (w : World) (arch : Archetype) (s : Slot) (e : Entity)
    (location : EntityLocation) : Option Val × World :=
  let w := { w with removed := w.removed ++ [(s, e)] }
  match w.kindStorage s.kind with
  | StorageType.table =>
    let table := w.storages.tables.getD arch.tableId default
    let column := (table.getColumn s).getD default
    let tableRow := arch.entityTableRows.getD location.index 0
    (column.data.getD tableRow none, w)
  | StorageType.sparseSet =>
    let (v, sparseSets') := sparseSetsRemoveAndForget w.storages.sparseSets s e
    (v, { w with storages := { w.storages with sparseSets := sparseSets' } })

/-- The `T::from_components` extraction loop of `remove_bundle`: take every
bundle slot's value in bundle order. -/
def takeAllEntityData (w : World) (arch : Archetype) (e : Entity)
    (location : EntityLocation) : List Slot → List (Option Val) × World
  | [] => ([], w)
  | s :: rest =>
    let (v, w') := takeEntityData w arch s e location
    let (vs, w'') := takeAllEntityData w' arch e location rest
    (v :: vs, w'')

/-- Mirrors `EntityMut::remove_bundle::<T>`: compute the strict destination
(`None` aborts with no change; a destination equal to the source returns
`None` before extracting anything); otherwise extract the bundle's values,
then perform the structural move with `move_to_and_forget_missing_unchecked`.
Returns the extracted values and the updated `self.location`. -/
def removeBundle (w : World) (e : Entity) (location : EntityLocation)
    (b : BundleInfo) : Option (List (Option Val)) × EntityLocation × World :=
  let (res, archetypes', storages') :=
    removeBundleFromArchetype w.archetypes w.storages w.kindStorage
      location.archetypeId b false
  let w := { w with archetypes := archetypes', storages := storages' }
  match res with
  | none => (none, location, w)
  | some newArchetypeId =>
    if newArchetypeId = location.archetypeId then (none, location, w)
    else
      let oldArch := w.archetypes.archetypes.getD location.archetypeId default
      let (values, w) := takeAllEntityData w oldArch e location b.relationIds
      let (newLocation, w) := structuralMove w e location newArchetypeId MoveKind.forget
      (some values, newLocation, w)

/-- Mirrors `EntityMut::remove_bundle_intersection::<T>`: compute the
intersection destination (the `expect` can never fire); when it equals the
source return with no change; otherwise log and sparse-remove each
overlapping slot, then perform the structural move with
`move_to_and_drop_missing_unchecked`. -/
def removeBundleIntersection (w : World) (e : Entity) (location : EntityLocation)
    (b : BundleInfo) : EntityLocation × World :=
  let (res, archetypes', storages') :=
    removeBundleFromArchetype w.archetypes w.storages w.kindStorage
      location.archetypeId b true
  let w := { w with archetypes := archetypes', storages := storages' }
  match res with
  | none => (location, w)
  | some newArchetypeId =>
    if newArchetypeId = location.archetypeId then (location, w)
    else
      let oldArch := w.archetypes.archetypes.getD location.archetypeId default
      let w := b.relationIds.foldl (fun w s =>
        if oldArch.containsSlot s then
          let w := { w with removed := w.removed ++ [(s, e)] }
          if oldArch.getStorageType s = some StorageType.sparseSet then
            { w with storages := { w.storages with
                sparseSets := sparseSetsRemove w.storages.sparseSets s e } }
          else w
        else w) w
      structuralMove w e location newArchetypeId MoveKind.drop

/-- Mirrors `EntityMut::despawn`: free the entity (spec-modelled allocator:
its live location becomes `none`), log every slot of its archetype as
removed, swap-remove it from the archetype redirecting the swapped entity's
location, remove its sparse-set values, swap-remove its table row redirecting
the table row of the entity moved into the vacated row. -/
def despawn (w : World) (e : Entity) : World :=
  match w.meta.getD e none with
  | none => w
  | some location =>
    let w := { w with meta := w.meta.set e none }
    let arch := w.archetypes.archetypes.getD location.archetypeId default
    let w := { w with removed := w.removed ++ arch.componentsList.map (fun s => (s, e)) }
    let (removeResult, arch') := arch.swapRemove location.index
    let archetypeList := w.archetypes.archetypes.set location.archetypeId arch'
    let meta :=
      match removeResult.swappedEntity with
      | some se => w.meta.set se (some location)
      | none => w.meta
    let tableRow := removeResult.tableRow
    let sparseSets := arch.sparseSetComponents.foldl
      (fun ss s => sparseSetsRemove ss s e) w.storages.sparseSets
    let table := w.storages.tables.getD arch'.tableId default
    let (movedEntity, table') := table.swapRemoveUnchecked tableRow
    let tables := w.storages.tables.set arch'.tableId table'
    let archetypeList :=
      match movedEntity with
      | some me =>
        match meta.getD me none with
        | some ml =>
          archetypeList.set ml.archetypeId
            ((archetypeList.getD ml.archetypeId default).setEntityTableRow ml.index tableRow)
        | none => archetypeList
      | none => archetypeList
    { w with archetypes := { w.archetypes with archetypes := archetypeList },
             storages := { w.storages with tables := tables, sparseSets := sparseSets },
             meta := meta }

/-- The location invariant over a list of archetypes and the live-location
vector, index-based: (1) the archetype stored at position `k` carries id `k`;
(2) every entity listed at `(k, i)` has stored location `(k, i)` (spec
invariant 1); (3) every stored location points back at its entity (the spec's
round-trip property). -/
def wfCoreProp (L : List Archetype) (meta : List (Option EntityLocation)) : Prop :=
  (∀ k, k < L.length → (L.getD k default).id = k) ∧
  (∀ k, k < L.length → ∀ i, i < (L.getD k default).entities.length →
    (L.getD k default).entities.getD i 0 < meta.length ∧
    meta.getD ((L.getD k default).entities.getD i 0) none = some ⟨k, i⟩) ∧
  (∀ eid l, meta.getD eid none = some l →
    l.archetypeId < L.length ∧
    l.index < (L.getD l.archetypeId default).entities.length ∧
    (L.getD l.archetypeId default).entities.getD l.index 0 = eid)

/-- Well-formedness of a world for the location claims: the core invariant
plus soundness of the archetype identity map (every mapped id names an
existing archetype). -/
def locWFProp (w : World) : Prop :=
  wfCoreProp w.archetypes.archetypes w.meta ∧
  (∀ kv ∈ w.archetypes.archetypeIds, kv.2 < w.archetypes.archetypes.length)

/-- Concrete two-archetype world used by the witnesses: the empty archetype
(id 0) and an archetype (id 1) with the single table slot `(1, none)` holding
the live entity 0. -/
def witnessWorld : World :=
  { archetypes :=
      { archetypes :=
          [Archetype.mk 0 [] [] 0 [] [],
           Archetype.mk 1 [0] [0] 0 [⟨1, none⟩] []],
        archetypeIds := [(([], []), 0), (([(⟨1, none⟩ : Slot)], []), 1)],
        archetypeComponentCount := 1 },
    storages :=
      { tables := [Table.mk [⟨⟨1, none⟩, [some 5], [⟨0, 0⟩]⟩] [0] [1] 64 64],
        tableIds := [([(⟨1, none⟩ : Slot)], 0)],
        sparseSets := [] },
    kindStorage := fun _ => StorageType.table,
    meta := [some ⟨1, 0⟩],
    removed := [],
    changeTick := 1 }

/-- Executable form of `locWFProp`, used so concrete worlds can be checked by
evaluation. -/
def locWF (w : World) : Bool :=
  ((List.range w.archetypes.archetypes.length).all fun k =>
    (w.archetypes.archetypes.getD k default).id == k) &&
  ((List.range w.archetypes.archetypes.length).all fun k =>
    (List.range (w.archetypes.archetypes.getD k default).entities.length).all fun i =>
      decide ((w.archetypes.archetypes.getD k default).entities.getD i 0 < w.meta.length) &&
      (w.meta.getD ((w.archetypes.archetypes.getD k default).entities.getD i 0) none
        == some ⟨k, i⟩)) &&
  ((List.range w.meta.length).all fun eid =>
    match w.meta.getD eid none with
    | none => true
    | some l =>
      decide (l.archetypeId < w.archetypes.archetypes.length) &&
      decide (l.index <
        (w.archetypes.archetypes.getD l.archetypeId default).entities.length) &&
      ((w.archetypes.archetypes.getD l.archetypeId default).entities.getD l.index 0
        == eid)) &&
  (w.archetypes.archetypeIds.all fun kv =>
    decide (kv.2 < w.archetypes.archetypes.length))

/-! Helper lemmas about list primitives. -/

theorem getD_eq_getElem? (l : List α) (n : Nat) (d : α) : l.getD n d = l[n]?.getD d :=
  List.getD_eq_getElem?_getD l n d

theorem getD_set_self (l : List α) (i : Nat) (v d : α) (h : i < l.length) :
    (l.set i v).getD i d = v := by
  simp [getD_eq_getElem?, List.getElem?_set, h]

theorem getD_set_ne (l : List α) (i j : Nat) (v d : α) (h : i ≠ j) :
    (l.set i v).getD j d = l.getD j d := by
  simp [getD_eq_getElem?, List.getElem?_set, h]

theorem getD_append_left (l₁ l₂ : List α) (j : Nat) (d : α) (h : j < l₁.length) :
    (l₁ ++ l₂).getD j d = l₁.getD j d := by
  simp [getD_eq_getElem?, List.getElem?_append, h]

theorem getD_concat_self (l : List α) (a d : α) : (l ++ [a]).getD l.length d = a := by
  simp [getD_eq_getElem?, List.getElem?_concat_length]

theorem getD_of_ge (l : List α) (j : Nat) (d : α) (h : l.length ≤ j) :
    l.getD j d = d := by
  simp [getD_eq_getElem?, List.getElem?_eq_none h]

theorem length_swapRemoveList (l : List α) (i : Nat) (h : l ≠ []) :
    (swapRemoveList l i).length = l.length - 1 := by
  obtain ⟨a, ha⟩ := Option.isSome_iff_exists.mp (List.getLast?_isSome.mpr h)
  simp [swapRemoveList, ha]

theorem getD_swapRemoveList (l : List α) (d : α) (i j : Nat) (hi : i < l.length)
    (hj : j < l.length - 1) :
    (swapRemoveList l i).getD j d =
      if j = i then l.getD (l.length - 1) d else l.getD j d := by
  have hne : l ≠ [] := List.ne_nil_of_length_pos (Nat.lt_of_le_of_lt (Nat.zero_le i) hi)
  obtain ⟨a, ha⟩ := Option.isSome_iff_exists.mp (List.getLast?_isSome.mpr hne)
  have hav : a = l.getD (l.length - 1) d := by
    rw [List.getLast?_eq_getElem?] at ha
    simp [getD_eq_getElem?, ha]
  simp only [swapRemoveList, ha, List.dropLast_eq_take, List.length_set,
    getD_eq_getElem?, List.getElem?_take, hj, if_pos, List.getElem?_set, hi]
  by_cases hji : j = i
  · subst hji
    simp [hav, hi]
  · rw [if_neg (Ne.symm hji), if_neg hji]

theorem get?_swapRemoveList (l : List α) (i j : Nat) (hi : i < l.length)
    (hj : j < l.length - 1) :
    (swapRemoveList l i).get? j =
      if j = i then l[l.length - 1]? else l[j]? := by
  have hne : l ≠ [] := List.ne_nil_of_length_pos (Nat.lt_of_le_of_lt (Nat.zero_le i) hi)
  obtain ⟨a, ha⟩ := Option.isSome_iff_exists.mp (List.getLast?_isSome.mpr hne)
  have hav : l[l.length - 1]? = some a := by
    rw [List.getLast?_eq_getElem?] at ha
    exact ha
  simp only [swapRemoveList, ha, List.get?_eq_getElem?, List.dropLast_eq_take,
    List.length_set, List.getElem?_take, hj, if_pos, List.getElem?_set, hi]
  by_cases hji : j = i
  · subst hji
    simp [hav]
  · rw [if_neg (Ne.symm hji), if_neg hji]

/-! Claim C7: `Archetype::swap_remove`. -/

/-- C7: for every non-empty archetype and in-bounds index, `swap_remove`
removes the entry at that index (the list shrinks by one and all other
positions are preserved) and returns that entry's table row; `swapped_entity`
is `none` iff the index was last, and otherwise it is the previously-last
entity, which now occupies the removed index. -/
theorem archetype_swapRemove_spec (a : Archetype) (index : Nat)
    (h : index < a.entities.length) :
    ((a.swapRemove index).1.swappedEntity = none ↔ index = a.entities.length - 1) ∧
    (a.swapRemove index).1.tableRow = a.entityTableRows.getD index 0 ∧
    (a.swapRemove index).2.entities.length = a.entities.length - 1 ∧
    (∀ j, j < a.entities.length - 1 → j ≠ index →
      (a.swapRemove index).2.entities.getD j 0 = a.entities.getD j 0) ∧
    (index ≠ a.entities.length - 1 →
      (a.swapRemove index).1.swappedEntity =
        some (a.entities.getD (a.entities.length - 1) 0) ∧
      (a.swapRemove index).2.entities.getD index 0 =
        a.entities.getD (a.entities.length - 1) 0) := by
  have hne : a.entities ≠ [] := List.ne_nil_of_length_pos (Nat.lt_of_le_of_lt (Nat.zero_le index) h)
  refine ⟨?_, rfl, ?_, ?_, ?_⟩
  · constructor
    · intro hnone
      by_contra hlast
      rw [Archetype.swapRemove] at hnone
      simp only [if_neg hlast] at hnone
      have hidx : index < a.entities.length - 1 := by omega
      rw [get?_swapRemoveList a.entities index index h hidx] at hnone
      simp only [if_pos rfl] at hnone
      rw [List.getElem?_eq_getElem (by omega)] at hnone
      exact Option.noConfusion hnone
    · intro hlast
      simp [Archetype.swapRemove, hlast]
  · simpa [Archetype.swapRemove] using length_swapRemoveList a.entities index hne
  · intro j hj hji
    simp only [Archetype.swapRemove]
    rw [getD_swapRemoveList a.entities 0 index j h hj, if_neg hji]
  · intro hlast
    have hidx : index < a.entities.length - 1 := by omega
    constructor
    · simp only [Archetype.swapRemove, if_neg hlast]
      rw [get?_swapRemoveList a.entities index index h hidx, if_pos rfl,
        List.getElem?_eq_getElem (by omega)]
      simp [getD_eq_getElem?, List.getElem?_eq_getElem (show a.entities.length - 1 < a.entities.length by omega)]
    · simp only [Archetype.swapRemove]
      rw [getD_swapRemoveList a.entities 0 index index h hidx, if_pos rfl]

/-- Witness for C7 at a concrete archetype. -/
theorem archetype_swapRemove_spec_witness :
    (1 < (Archetype.mk 3 [10, 11, 12] [5, 6, 7] 0 [] []).entities.length) ∧
    ((Archetype.mk 3 [10, 11, 12] [5, 6, 7] 0 [] []).swapRemove 1).1.swappedEntity =
      some 12 :=
  ⟨by decide, by
    have h := archetype_swapRemove_spec (Archetype.mk 3 [10, 11, 12] [5, 6, 7] 0 [] []) 1
      (by decide)
    have := (h.2.2.2.2 (by decide)).1
    simpa using this⟩

/-! Claim C5: `Archetypes::get_id_or_insert` determinism and idempotence. -/

/-- C5: `get_id_or_insert` is deterministic and idempotent: repeating a call
with the same slot lists returns the same `ArchetypeId` and leaves the
registry unchanged (no new archetype); and the returned id depends only on
the pair of slot lists — a second call with any other `table_id` but the same
slot pair returns the same id. -/
theorem archetypes_getIdOrInsert_deterministic (as : Archetypes) (tableId : Nat)
    (ts ss : List Slot) :
    ((as.getIdOrInsert tableId ts ss).2.getIdOrInsert tableId ts ss =
      ((as.getIdOrInsert tableId ts ss).1, (as.getIdOrInsert tableId ts ss).2)) ∧
    (∀ tableId',
      ((as.getIdOrInsert tableId ts ss).2.getIdOrInsert tableId' ts ss).1 =
        (as.getIdOrInsert tableId ts ss).1) := by
  have key : ∀ tid', ((as.getIdOrInsert tableId ts ss).2.getIdOrInsert tid' ts ss) =
      ((as.getIdOrInsert tableId ts ss).1, (as.getIdOrInsert tableId ts ss).2) := by
    intro tid'
    unfold Archetypes.getIdOrInsert
    cases hfind : as.archetypeIds.find? (fun kv => kv.1 = (ts, ss)) with
    | some kv => simp [hfind]
    | none =>
      simp only [hfind]
      rw [List.find?_append, hfind]
      simp
  exact ⟨key tableId, fun tid' => by rw [key tid']⟩

/-! Claim C3: the column-length invariant across table mutations. -/

theorem length_setLenCells (l : List (Option Val)) (n : Nat) :
    (setLenCells l n).length = n := by
  unfold setLenCells
  split_ifs with h
  · simp [Nat.min_eq_left h]
  · simp
    omega

theorem reserve_columns (t : Table) (n : Nat) : (t.reserve n).columns = t.columns := by
  simp only [Table.reserve]
  split_ifs <;> rfl

theorem reserve_entities (t : Table) (n : Nat) : (t.reserve n).entities = t.entities := by
  simp only [Table.reserve]
  split_ifs <;> rfl

theorem lenInvariant_allocate (t : Table) (e : Entity) (hinv : t.lenInvariant) :
    (t.allocate e).2.lenInvariant := by
  intro c hc
  simp only [Table.allocate, reserve_columns, reserve_entities, List.mem_map] at hc ⊢
  obtain ⟨c₀, hc₀, rfl⟩ := hc
  obtain ⟨hd, ht⟩ := hinv c₀ hc₀
  simp [length_setLenCells, ht]

theorem lenInvariant_swapRemove (t : Table) (row : Nat) (hinv : t.lenInvariant)
    (hrow : row < t.entities.length) :
    (t.swapRemoveUnchecked row).2.lenInvariant := by
  intro c hc
  have hne : t.entities ≠ [] := List.ne_nil_of_length_pos (by omega)
  simp only [Table.swapRemoveUnchecked, List.mem_map] at hc ⊢
  obtain ⟨c₀, hc₀, rfl⟩ := hc
  obtain ⟨hd, ht⟩ := hinv c₀ hc₀
  have hdne : c₀.data ≠ [] := List.ne_nil_of_length_pos (by omega)
  have htne : c₀.ticks ≠ [] := List.ne_nil_of_length_pos (by omega)
  simp [Column.swapRemoveUnchecked, length_swapRemoveList _ _ hne,
    length_swapRemoveList _ _ hdne, length_swapRemoveList _ _ htne, hd, ht]

theorem lenInvariant_moveCellStep (row newRow : Nat) (nt : Table) (c : Column)
    (hinv : nt.lenInvariant) : (moveCellStep row newRow nt c).lenInvariant := by
  unfold moveCellStep
  split_ifs with h
  · intro c' hc'
    simp only [Table.updateColumn, List.mem_map] at hc'
    obtain ⟨c₀, hc₀, rfl⟩ := hc'
    obtain ⟨hd, ht⟩ := hinv c₀ hc₀
    split_ifs <;> simp [Table.updateColumn, hd, ht]
  · exact hinv

theorem lenInvariant_moveFold (row newRow : Nat) (cs : List Column) (nt : Table)
    (hinv : nt.lenInvariant) :
    (cs.foldl (fun acc c => moveCellStep row newRow acc c) nt).lenInvariant := by
  induction cs generalizing nt with
  | nil => exact hinv
  | cons c rest ih =>
    exact ih _ (lenInvariant_moveCellStep row newRow nt c hinv)

theorem lenInvariant_moveFoldDrop (row newRow : Nat) (cs : List Column) (nt : Table)
    (hinv : nt.lenInvariant) :
    (cs.foldl (fun acc c =>
      if acc.hasColumn c.relationship then moveCellStep row newRow acc c else acc)
      nt).lenInvariant := by
  induction cs generalizing nt with
  | nil => exact hinv
  | cons c rest ih =>
    by_cases h : nt.hasColumn c.relationship = true
    · simpa [h] using ih _ (lenInvariant_moveCellStep row newRow nt c hinv)
    · simpa [h] using ih _ hinv

theorem lenInvariant_srcAfterMove (t : Table) (row : Nat) (hinv : t.lenInvariant)
    (hrow : row < t.entities.length) :
    Table.lenInvariant
      { t with columns := t.columns.map (fun c => c.swapRemoveUnchecked row),
               entities := swapRemoveList t.entities row } := by
  intro c hc
  have hne : t.entities ≠ [] := List.ne_nil_of_length_pos (by omega)
  simp only [List.mem_map] at hc ⊢
  obtain ⟨c₀, hc₀, rfl⟩ := hc
  obtain ⟨hd, ht⟩ := hinv c₀ hc₀
  have hdne : c₀.data ≠ [] := List.ne_nil_of_length_pos (by omega)
  have htne : c₀.ticks ≠ [] := List.ne_nil_of_length_pos (by omega)
  simp [Column.swapRemoveUnchecked, length_swapRemoveList _ _ hne,
    length_swapRemoveList _ _ hdne, length_swapRemoveList _ _ htne, hd, ht]

/-- C3: after each of `allocate`, `swap_remove_unchecked`,
`move_to_and_forget_missing_unchecked`, `move_to_and_drop_missing_unchecked`
and `move_to_superset_unchecked` (at an in-bounds row, with the superset
precondition for the latter), every column's data length and ticks length
equal the table's entity-list length, in the source table and in the
destination table. -/
theorem table_column_length_invariant :
    (∀ (t : Table) (e : Entity), t.lenInvariant → (t.allocate e).2.lenInvariant) ∧
    (∀ (t : Table) (row : Nat), t.lenInvariant → row < t.entities.length →
      (t.swapRemoveUnchecked row).2.lenInvariant) ∧
    (∀ (t nt : Table) (row : Nat), t.lenInvariant → nt.lenInvariant →
      row < t.entities.length →
      (t.moveToAndForgetMissingUnchecked row nt).2.1.lenInvariant ∧
      (t.moveToAndForgetMissingUnchecked row nt).2.2.lenInvariant) ∧
    (∀ (t nt : Table) (row : Nat), t.lenInvariant → nt.lenInvariant →
      row < t.entities.length →
      (t.moveToAndDropMissingUnchecked row nt).2.1.lenInvariant ∧
      (t.moveToAndDropMissingUnchecked row nt).2.2.lenInvariant) ∧
    (∀ (t nt : Table) (row : Nat), t.lenInvariant → nt.lenInvariant →
      row < t.entities.length →
      (t.columns.all fun c => nt.hasColumn c.relationship) = true →
      t.moveToSupersetUnchecked row nt =
        some (t.moveToAndForgetMissingUnchecked row nt) ∧
      ∀ r, t.moveToSupersetUnchecked row nt = some r →
        r.2.1.lenInvariant ∧ r.2.2.lenInvariant) := by
  have hforget : ∀ (t nt : Table) (row : Nat), t.lenInvariant → nt.lenInvariant →
      row < t.entities.length →
      (t.moveToAndForgetMissingUnchecked row nt).2.1.lenInvariant ∧
      (t.moveToAndForgetMissingUnchecked row nt).2.2.lenInvariant := by
    intro t nt row hs hd hrow
    constructor
    · simpa [Table.moveToAndForgetMissingUnchecked] using
        lenInvariant_srcAfterMove t row hs hrow
    · simp only [Table.moveToAndForgetMissingUnchecked]
      exact lenInvariant_moveFold _ _ _ _ (lenInvariant_allocate nt _ hd)
  refine ⟨lenInvariant_allocate, lenInvariant_swapRemove, hforget, ?_, ?_⟩
  · intro t nt row hs hd hrow
    constructor
    · simpa [Table.moveToAndDropMissingUnchecked] using
        lenInvariant_srcAfterMove t row hs hrow
    · simp only [Table.moveToAndDropMissingUnchecked]
      exact lenInvariant_moveFoldDrop _ _ _ _ (lenInvariant_allocate nt _ hd)
  · intro t nt row hs hd hrow hall
    refine ⟨by simp [Table.moveToSupersetUnchecked, hall], ?_⟩
    intro r hr
    rw [Table.moveToSupersetUnchecked, if_pos hall] at hr
    cases hr
    exact hforget t nt row hs hd hrow

/-- Witness for C3 at concrete tables. -/
theorem table_column_length_invariant_witness :
    (Table.mk [⟨⟨0, none⟩, [some 1, some 2], [⟨0, 0⟩, ⟨0, 0⟩]⟩] [7, 8] [] 64 2).lenInvariant ∧
    (0 < 2) ∧
    ((Table.mk [⟨⟨0, none⟩, [some 1, some 2], [⟨0, 0⟩, ⟨0, 0⟩]⟩] [7, 8] [] 64
      2).swapRemoveUnchecked 0).2.lenInvariant :=
  ⟨by decide, by decide,
    table_column_length_invariant.2.1
      (Table.mk [⟨⟨0, none⟩, [some 1, some 2], [⟨0, 0⟩, ⟨0, 0⟩]⟩] [7, 8] [] 64 2) 0
      (by decide) (by decide)⟩

/-! Claim C6: the table grow policy. -/

set_option maxRecDepth 40000 in
/-- C6: `reserve` leaves the capacity unchanged when the free space suffices;
otherwise the new capacity is the required length rounded up to the next
`grow_amount` boundary (a multiple of `grow_amount`, at least the required
length, less than one `grow_amount` beyond it). Allocating 200 rows one at a
time from capacity 0 with `grow_amount = 64` produces the capacity
progression 0, 64, 128, 192, 256, with final length 200 and capacity 256. -/
theorem table_grow_policy :
    (∀ (t : Table) (amount : Nat), amount ≤ t.capacity - t.entities.length →
      t.reserve amount = t) ∧
    (∀ (t : Table) (amount : Nat), 0 < t.growAmount →
      t.capacity - t.entities.length < amount →
      (t.reserve amount).capacity % t.growAmount = 0 ∧
      t.entities.length + amount ≤ (t.reserve amount).capacity ∧
      (t.reserve amount).capacity < t.entities.length + amount + t.growAmount) ∧
    ((tableGrowTrace 200).1.entities.length = 200 ∧
      (tableGrowTrace 200).1.capacity = 256 ∧
      (tableGrowTrace 200).2.dedup = [0, 64, 128, 192, 256]) := by
  refine ⟨?_, ?_, by decide⟩
  · intro t amount h
    unfold Table.reserve
    rw [if_neg (by omega)]
  · intro t amount hg h
    unfold Table.reserve
    rw [if_pos h]
    simp only
    set m := t.entities.length + amount with hm
    set g := t.growAmount with hgdef
    have hdm := Nat.div_add_mod (m + g - 1) g
    have hmod : (m + g - 1) % g < g := Nat.mod_lt _ hg
    refine ⟨Nat.mul_mod_left _ _, ?_, ?_⟩
    · rw [Nat.mul_comm]
      generalize hX : g * ((m + g - 1) / g) = X at hdm ⊢
      omega
    · rw [Nat.mul_comm]
      generalize hX : g * ((m + g - 1) / g) = X at hdm ⊢
      omega

/-- Witness for C6 at a concrete table and amount. -/
theorem table_grow_policy_witness :
    (5 ≤ (Table.mk [] [] [] 64 5).capacity - (Table.mk [] [] [] 64 5).entities.length) ∧
    (Table.mk [] [] [] 64 5).reserve 5 = Table.mk [] [] [] 64 5 :=
  ⟨by decide, table_grow_policy.1 (Table.mk [] [] [] 64 5) 5 (by decide)⟩

/-! Claim C9: duplicate components in a static typed bundle are a hard
error. -/

theorem slot_le_antisymm (a b : Slot) (h1 : Slot.le a b) (h2 : Slot.le b a) : a = b := by
  rcases a with ⟨ka, ta⟩
  rcases b with ⟨kb, tb⟩
  simp only [Slot.le, Slot.leb] at h1 h2
  rcases ta with _ | x <;> rcases tb with _ | y <;> split_ifs at h1 h2 <;>
    simp_all [Slot.mk.injEq] <;> omega

theorem dedupConsec_sublist : ∀ l : List Slot, (dedupConsec l).Sublist l
  | [] => by simp [dedupConsec]
  | [a] => by simp [dedupConsec]
  | a :: b :: rest => by
    rw [dedupConsec]
    split_ifs with h
    · exact (dedupConsec_sublist (b :: rest)).cons a
    · exact (dedupConsec_sublist (b :: rest)).cons₂ a

theorem nodup_of_sorted_dedupConsec : ∀ l : List Slot, l.Sorted Slot.le →
    (dedupConsec l).length = l.length → l.Nodup
  | [] => by simp
  | [a] => by simp
  | a :: b :: rest => by
    intro hs hl
    rw [dedupConsec] at hl
    split_ifs at hl with h
    · have hle := (dedupConsec_sublist (b :: rest)).length_le
      simp only [List.length_cons] at hl hle
      omega
    · have hs' : (b :: rest).Sorted Slot.le := hs.of_cons
      have htail : (b :: rest).Nodup :=
        nodup_of_sorted_dedupConsec (b :: rest) hs' (by
          simp only [List.length_cons] at hl ⊢
          omega)

      have hmem : a ∉ b :: rest := by
        intro hmem
        rcases List.mem_cons.mp hmem with hab | hmemr
        · exact h hab
        · have hab : Slot.le a b := (List.sorted_cons.mp hs).1 b (by simp)
          have har : Slot.le a (b :: rest).head! := hab
          have hba : Slot.le b a := (List.sorted_cons.mp hs').1 a hmemr
          have hax : Slot.le a b := hab
          exact h (slot_le_antisymm a b hab hba)
      exact List.nodup_cons.mpr ⟨hmem, htail⟩

theorem lookupType_getOrInsert_self (cs : Components) (t : Nat) :
    lookupType (cs.getComponentKindOrInsert t).2 t =
      some (cs.getComponentKindOrInsert t).1 := by
  unfold Components.getComponentKindOrInsert lookupType
  cases hfind : cs.typeIndices.find? (fun kv => kv.1 = t) with
  | some kv =>
    simp only [hfind]
    have := List.find?_some hfind
    simp at this
    simp [List.find?, hfind]
  | none => simp [hfind, List.find?_append]

theorem lookupType_getOrInsert_mono (cs : Components) (t t' : Nat) (i : Nat)
    (h : lookupType cs t' = some i) :
    lookupType (cs.getComponentKindOrInsert t).2 t' = some i := by
  unfold Components.getComponentKindOrInsert
  cases hfind : cs.typeIndices.find? (fun kv => kv.1 = t) with
  | some kv => simpa [hfind] using h
  | none =>
    unfold lookupType at h ⊢
    simp only [hfind, List.find?_append]
    obtain ⟨kv, hkv, hsnd⟩ : ∃ kv, cs.typeIndices.find? (fun kv => kv.1 = t') = some kv ∧
        kv.2 = i := by
      cases hfind' : cs.typeIndices.find? (fun kv => kv.1 = t') with
      | some kv => exact ⟨kv, rfl, by simpa [hfind'] using h⟩
      | none => simp [hfind'] at h
    simp [hkv, hsnd]

theorem registerTypes_mono : ∀ (ts : List Nat) (cs : Components) (t' i : Nat),
    lookupType cs t' = some i → lookupType (registerTypes cs ts).2 t' = some i
  | [], cs, t', i => fun h => h
  | t :: rest, cs, t', i => fun h => by
    rw [registerTypes]
    exact registerTypes_mono rest _ t' i (lookupType_getOrInsert_mono cs t t' i h)

theorem registerTypes_ids_eq : ∀ (ts : List Nat) (cs : Components),
    (registerTypes cs ts).1 =
      ts.map (fun t => (lookupType (registerTypes cs ts).2 t).getD 0)
  | [], cs => by simp [registerTypes]
  | t :: rest, cs => by
    rw [registerTypes]
    simp only [List.map_cons, List.cons.injEq]
    constructor
    · have hself := lookupType_getOrInsert_self cs t
      have := registerTypes_mono rest (cs.getComponentKindOrInsert t).2 t
        (cs.getComponentKindOrInsert t).1 hself
      simp [this]
    · exact registerTypes_ids_eq rest (cs.getComponentKindOrInsert t).2

/-- C9: registering a static typed bundle whose component list mentions the
same component type more than once fails the sort-dedup length check of
`initialize_bundle` and panics (modelled as `Except.error`) rather than
returning a recoverable value. -/
theorem duplicate_bundle_types_panic (cs : Components) (ks : Nat → StorageType)
    (typeInfo : List Nat) (hdup : ¬ typeInfo.Nodup) :
    (initBundle cs ks typeInfo).1 = Except.error "Bundle has duplicate components" := by
  simp only [initBundle]
  set ids := (registerTypes cs typeInfo).1 with hids
  set componentIds : List Slot := ids.map (fun i => ⟨i, none⟩) with hcomp
  split_ifs with hlen
  · rfl
  · exfalso
    push_neg at hlen
    have hsorted : (sortSlots componentIds).Sorted Slot.le :=
      List.sorted_insertionSort Slot.le componentIds
    have hlen' : (dedupConsec (sortSlots componentIds)).length =
        (sortSlots componentIds).length := by
      rw [hlen]
      simp [sortSlots, List.length_insertionSort]
    have hnodup_sorted := nodup_of_sorted_dedupConsec _ hsorted hlen'
    have hnodup_comp : componentIds.Nodup :=
      (List.perm_insertionSort Slot.le componentIds).nodup_iff.mp hnodup_sorted
    have hnodup_ids : ids.Nodup := List.Nodup.of_map _ hnodup_comp
    have hmap : ids = typeInfo.map
        (fun t => (lookupType (registerTypes cs typeInfo).2 t).getD 0) :=
      registerTypes_ids_eq typeInfo cs
    have hnodup_types : typeInfo.Nodup := by
      rw [hmap] at hnodup_ids
      exact List.Nodup.of_map _ hnodup_ids
    exact hdup hnodup_types

/-- Witness for C9 at a concrete duplicate bundle. -/
theorem duplicate_bundle_types_panic_witness :
    (¬ ([5, 5] : List Nat).Nodup) ∧
    (initBundle (Components.mk [] 0) (fun _ => StorageType.table) [5, 5]).1 =
      Except.error "Bundle has duplicate components" :=
  ⟨by decide,
    duplicate_bundle_types_panic (Components.mk [] 0) (fun _ => StorageType.table)
      [5, 5] (by decide)⟩

/-! Claims C2, C8, C10: the remove paths. -/

theorem removeBundleClassify_none (arch : Archetype) (ks : Nat → StorageType) :
    ∀ slots : List Slot, (∃ s ∈ slots, arch.containsSlot s = false) →
      removeBundleClassify arch ks false slots = none := by
  intro slots
  induction slots with
  | nil => rintro ⟨s, hs, _⟩; cases hs
  | cons s rest ih =>
    rintro ⟨s', hs', hmiss⟩
    rw [removeBundleClassify]
    rcases List.mem_cons.mp hs' with rfl | hrest
    · rw [if_neg (by simp [hmiss])]
      simp
    · by_cases hc : arch.containsSlot s = true
      · rw [if_pos hc, ih ⟨s', hrest, hmiss⟩]
        rfl
      · rw [if_neg hc]
        simp

theorem removeBundleClassify_intersection_isSome (arch : Archetype)
    (ks : Nat → StorageType) :
    ∀ slots : List Slot, (removeBundleClassify arch ks true slots).isSome := by
  intro slots
  induction slots with
  | nil => simp [removeBundleClassify]
  | cons s rest ih =>
    rw [removeBundleClassify]
    by_cases hc : arch.containsSlot s = true
    · rw [if_pos hc]
      simpa using ih
    · rw [if_neg hc]
      simpa using ih

theorem removeBundleClassify_no_overlap (arch : Archetype) (ks : Nat → StorageType) :
    ∀ slots : List Slot, (∀ s ∈ slots, arch.containsSlot s = false) →
      removeBundleClassify arch ks true slots = some ([], []) := by
  intro slots
  induction slots with
  | nil => intro _; rfl
  | cons s rest ih =>
    intro h
    rw [removeBundleClassify, if_neg (by simp [h s (by simp)])]
    simpa using ih (fun s' hs' => h s' (List.mem_cons_of_mem s hs'))

theorem advanceIdx_nil (v : Slot) (ri : Nat) : advanceIdx [] v ri = ri := by
  rw [advanceIdx]
  simp

theorem sortedRemove_nil (l : List Slot) : sortedRemove l [] = l := by
  show sortedRemoveGo [] l 0 = l
  generalize 0 = ri
  induction l generalizing ri with
  | nil => rfl
  | cons v rest ih =>
    rw [sortedRemoveGo]
    simp only [advanceIdx_nil, List.length_nil]
    rw [if_neg (by omega)]
    rw [ih]

theorem getIdOrInsert_found (as : Archetypes) (tid : Nat) (ts ss : List Slot)
    (kv : (List Slot × List Slot) × Nat)
    (h : (as.archetypeIds.find? fun x => x.1 = (ts, ss)) = some kv) :
    as.getIdOrInsert tid ts ss = (kv.2, as) := by
  simp only [Archetypes.getIdOrInsert]
  rw [h]

/-- C2: strict `remove_bundle` returns `None` and leaves the world — the
entity's archetype and location, all component values, and the
removed-components log — unchanged whenever at least one requested slot is
absent from the entity's current archetype. -/
theorem removeBundle_strict_missing_noop (w : World) (e : Entity)
    (location : EntityLocation) (b : BundleInfo)
    (hmiss : ∃ s ∈ b.relationIds,
      (w.archetypes.archetypes.getD location.archetypeId default).containsSlot s
        = false) :
    removeBundle w e location b = (none, location, w) := by
  have hclass := removeBundleClassify_none
    (w.archetypes.archetypes.getD location.archetypeId default) w.kindStorage
    b.relationIds hmiss
  simp only [getD_eq_getElem?] at hclass
  simp [removeBundle, removeBundleFromArchetype, hclass]

/-- Witness for C2: a strict removal of an absent slot on the witness world. -/
theorem removeBundle_strict_missing_noop_witness :
    (∃ s ∈ (BundleInfo.mk [⟨2, none⟩] [StorageType.table]).relationIds,
      (witnessWorld.archetypes.archetypes.getD 1 default).containsSlot s = false) ∧
    removeBundle witnessWorld 0 ⟨1, 0⟩ (BundleInfo.mk [⟨2, none⟩] [StorageType.table]) =
      (none, ⟨1, 0⟩, witnessWorld) :=
  ⟨by decide,
    removeBundle_strict_missing_noop witnessWorld 0 ⟨1, 0⟩
      (BundleInfo.mk [⟨2, none⟩] [StorageType.table]) (by decide)⟩

/-- C8: `remove_bundle_intersection` always computes a destination (the
`expect` cannot fire), and when the bundle shares no slot with the entity's
archetype it makes no change at all: same archetype and location for the
entity, no component value touched, nothing appended to the removed-
components log. -/
theorem removeBundleIntersection_no_overlap_noop :
    (∀ (as : Archetypes) (st : Storages) (ks : Nat → StorageType) (aid : Nat)
      (b : BundleInfo),
      (removeBundleFromArchetype as st ks aid b true).1.isSome) ∧
    (∀ (w : World) (e : Entity) (location : EntityLocation) (b : BundleInfo),
      (∀ s ∈ b.relationIds,
        (w.archetypes.archetypes.getD location.archetypeId default).containsSlot s
          = false) →
      (w.archetypes.archetypeIds.find? fun x =>
          x.1 = ((w.archetypes.archetypes.getD location.archetypeId
                  default).tableComponents,
                 (w.archetypes.archetypes.getD location.archetypeId
                  default).sparseSetComponents)) =
        some (((w.archetypes.archetypes.getD location.archetypeId
                default).tableComponents,
               (w.archetypes.archetypes.getD location.archetypeId
                default).sparseSetComponents), location.archetypeId) →
      removeBundleIntersection w e location b = (location, w)) := by
  constructor
  · intro as st ks aid b
    unfold removeBundleFromArchetype
    cases hclass : removeBundleClassify (as.archetypes.getD aid default) ks true
        b.relationIds with
    | none =>
      have := removeBundleClassify_intersection_isSome
        (as.archetypes.getD aid default) ks b.relationIds
      rw [hclass] at this
      cases this
    | some p =>
      simp only [getD_eq_getElem?] at hclass
      simp [hclass]
  · intro w e location b hover hkey
    have hclass := removeBundleClassify_no_overlap
      (w.archetypes.archetypes.getD location.archetypeId default) w.kindStorage
      b.relationIds hover
    have hfound := getIdOrInsert_found w.archetypes
      (w.archetypes.archetypes.getD location.archetypeId default).tableId
      (w.archetypes.archetypes.getD location.archetypeId default).tableComponents
      (w.archetypes.archetypes.getD location.archetypeId default).sparseSetComponents
      _ hkey
    simp only [getD_eq_getElem?] at hclass hfound
    simp [removeBundleIntersection, removeBundleFromArchetype, hclass, sortSlots,
      sortedRemove_nil, hfound]

/-- Witness for C8: an intersection removal with no overlapping slot on the
witness world. -/
theorem removeBundleIntersection_no_overlap_noop_witness :
    (∀ s ∈ (BundleInfo.mk [⟨2, none⟩] [StorageType.table]).relationIds,
      (witnessWorld.archetypes.archetypes.getD 1 default).containsSlot s = false) ∧
    removeBundleIntersection witnessWorld 0 ⟨1, 0⟩
      (BundleInfo.mk [⟨2, none⟩] [StorageType.table]) = (⟨1, 0⟩, witnessWorld) :=
  ⟨by decide,
    removeBundleIntersection_no_overlap_noop.2 witnessWorld 0 ⟨1, 0⟩
      (BundleInfo.mk [⟨2, none⟩] [StorageType.table]) (by decide) (by decide)⟩

/-- C10: `remove_bundle` returns `Some` only when the computed destination
archetype differs from the current one; whenever the destination equals the
source — in particular for the empty bundle `()`, where no requested slot is
missing — it returns `None` without extracting any component values and
without touching the world. -/
theorem removeBundle_none_when_archetype_unchanged :
    (∀ (w : World) (e : Entity) (location : EntityLocation) (b : BundleInfo),
      ((removeBundle w e location b).1).isSome →
      ∃ dst, (removeBundleFromArchetype w.archetypes w.storages w.kindStorage
          location.archetypeId b false).1 = some dst ∧ dst ≠ location.archetypeId) ∧
    (∀ (w : World) (e : Entity) (location : EntityLocation) (b : BundleInfo),
      b.relationIds = [] →
      (w.archetypes.archetypeIds.find? fun x =>
          x.1 = ((w.archetypes.archetypes.getD location.archetypeId
                  default).tableComponents,
                 (w.archetypes.archetypes.getD location.archetypeId
                  default).sparseSetComponents)) =
        some (((w.archetypes.archetypes.getD location.archetypeId
                default).tableComponents,
               (w.archetypes.archetypes.getD location.archetypeId
                default).sparseSetComponents), location.archetypeId) →
      removeBundle w e location b = (none, location, w)) := by
  constructor
  · intro w e location b hsome
    rcases hr : removeBundleFromArchetype w.archetypes w.storages w.kindStorage
        location.archetypeId b false with ⟨res, as', st'⟩
    rw [removeBundle] at hsome
    rw [hr] at hsome
    cases res with
    | none => simp at hsome
    | some dst =>
      by_cases hdst : dst = location.archetypeId
      · subst hdst
        simp at hsome
      · exact ⟨dst, by simp [hr], hdst⟩
  · intro w e location b hb hkey
    have hclass : removeBundleClassify
        (w.archetypes.archetypes.getD location.archetypeId default) w.kindStorage
        false b.relationIds = some ([], []) := by
      rw [hb]
      rfl
    have hfound := getIdOrInsert_found w.archetypes
      (w.archetypes.archetypes.getD location.archetypeId default).tableId
      (w.archetypes.archetypes.getD location.archetypeId default).tableComponents
      (w.archetypes.archetypes.getD location.archetypeId default).sparseSetComponents
      _ hkey
    simp only [getD_eq_getElem?] at hclass hfound
    simp [removeBundle, removeBundleFromArchetype, hclass, sortSlots,
      sortedRemove_nil, hfound]

/-- Witness for C10: removing the empty bundle on the witness world. -/
theorem removeBundle_none_when_archetype_unchanged_witness :
    ((BundleInfo.mk [] []).relationIds = ([] : List Slot)) ∧
    removeBundle witnessWorld 0 ⟨1, 0⟩ (BundleInfo.mk [] []) =
      (none, ⟨1, 0⟩, witnessWorld) :=
  ⟨rfl,
    removeBundle_none_when_archetype_unchanged.2 witnessWorld 0 ⟨1, 0⟩
      (BundleInfo.mk [] []) rfl (by decide)⟩

/-! Claim C4: bundle writes — Added vs Mutated, columns vs sparse sets. -/

theorem addBundleClassify_status (arch : Archetype) (ks : Nat → StorageType) :
    ∀ (slots : List Slot) (ss : SparseSets),
      (addBundleClassify arch ks slots ss).1 = slots.map
        (fun s => if arch.containsSlot s then ComponentStatus.mutated
                  else ComponentStatus.added)
  | [], ss => rfl
  | s :: rest, ss => by
    rw [addBundleClassify]
    by_cases hc : arch.containsSlot s = true
    · rw [if_pos hc]
      have hr := addBundleClassify_status arch ks rest ss
      rcases hrec : addBundleClassify arch ks rest ss with ⟨st, nt, nsp, ss2⟩
      rw [hrec] at hr
      have hr' : st = rest.map
          (fun s => if arch.containsSlot s then ComponentStatus.mutated
                    else ComponentStatus.added) := by simpa using hr
      simp [hrec, hc, hr']
    · rw [if_neg hc]
      cases hks : ks s.kind with
      | table =>
        have hr := addBundleClassify_status arch ks rest ss
        rcases hrec : addBundleClassify arch ks rest ss with ⟨st, nt, nsp, ss2⟩
        rw [hrec] at hr
        have hr' : st = rest.map
            (fun s => if arch.containsSlot s then ComponentStatus.mutated
                      else ComponentStatus.added) := by simpa using hr
        simp [hrec, hc, hr']
      | sparseSet =>
        have hr := addBundleClassify_status arch ks rest (sparseSetsGetOrInsert ss s)
        rcases hrec : addBundleClassify arch ks rest (sparseSetsGetOrInsert ss s) with
          ⟨st, nt, nsp, ss2⟩
        rw [hrec] at hr
        have hr' : st = rest.map
            (fun s => if arch.containsSlot s then ComponentStatus.mutated
                      else ComponentStatus.added) := by simpa using hr
        simp [hrec, hc, hr']

theorem find?_map_pred (l : List α) (g : α → α) (p : α → Bool)
    (h : ∀ a, p (g a) = p a) : (l.map g).find? p = (l.find? p).map g := by
  induction l with
  | nil => rfl
  | cons a rest ih =>
    by_cases hp : p a = true
    · simp [List.find?, h, hp]
    · simp only [List.map_cons, List.find?]
      rw [h a]
      simp only [hp]
      exact ih

theorem find?_update_list (s : Slot) (f : Column → Column)
    (hf : ∀ c, (f c).relationship = c.relationship) :
    ∀ cs : List Column,
      (cs.map (fun c => if c.relationship = s then f c else c)).find?
        (fun c => c.relationship = s) =
      (cs.find? (fun c => c.relationship = s)).map f := by
  intro cs
  induction cs with
  | nil => rfl
  | cons c rest ih =>
    by_cases h : c.relationship = s
    · simp [List.find?, h, hf]
    · simp only [List.map_cons, if_neg h, List.find?, hf]
      rw [decide_eq_false h]
      exact ih

theorem getColumn_updateColumn (t : Table) (s : Slot) (f : Column → Column)
    (hf : ∀ c, (f c).relationship = c.relationship) :
    (t.updateColumn s f).getColumn s = (t.getColumn s).map f := by
  unfold Table.updateColumn Table.getColumn
  exact find?_update_list s f hf t.columns

/-- C4: (1) the `bundle_status` computed by `add_bundle_to_archetype` marks a
slot `Mutated` exactly when the source archetype already contains it, and
`Added` otherwise; (2) a table slot marked `Added` is written through the
column's initializing write (both ticks stamped with the change tick); (3) a
table slot marked `Mutated` is written through `column.replace`, overwriting
the old value in place and stamping only the changed tick (the added tick is
preserved); (4) a sparse-set slot's value is inserted into the slot's sparse
set — updating in place when present, appending with fresh ticks when
absent. -/
theorem writeRelation_status_semantics :
    (∀ (as : Archetypes) (st : Storages) (ks : Nat → StorageType) (aid : Nat)
      (b : BundleInfo),
      (addBundleToArchetype as st ks aid b).1.bundleStatus = b.relationIds.map
        (fun s => if (as.archetypes.getD aid default).containsSlot s
          then ComponentStatus.mutated else ComponentStatus.added)) ∧
    (∀ (b : BundleInfo) (ss : SparseSets) (e : Entity) (table : Table) (row : Nat)
      (status : List ComponentStatus) (i : Nat) (v : Val) (tick : Nat)
      (c : Column),
      b.storageTypes.getD i StorageType.table = StorageType.table →
      status.getD i ComponentStatus.added = ComponentStatus.added →
      table.getColumn (b.relationIds.getD i default) = some c →
      (writeRelation b ss e table row status i v tick).2 = ss ∧
      (writeRelation b ss e table row status i v tick).1.getColumn
          (b.relationIds.getD i default) =
        some (c.initCell row v (ComponentTicks.new tick))) ∧
    (∀ (b : BundleInfo) (ss : SparseSets) (e : Entity) (table : Table) (row : Nat)
      (status : List ComponentStatus) (i : Nat) (v : Val) (tick : Nat)
      (c : Column),
      b.storageTypes.getD i StorageType.table = StorageType.table →
      status.getD i ComponentStatus.added = ComponentStatus.mutated →
      table.getColumn (b.relationIds.getD i default) = some c →
      (writeRelation b ss e table row status i v tick).2 = ss ∧
      (writeRelation b ss e table row status i v tick).1.getColumn
          (b.relationIds.getD i default) = some (c.replace row v tick)) ∧
    (∀ (b : BundleInfo) (ss : SparseSets) (e : Entity) (table : Table) (row : Nat)
      (status : List ComponentStatus) (i : Nat) (v : Val) (tick : Nat),
      b.storageTypes.getD i StorageType.table = StorageType.sparseSet →
      (writeRelation b ss e table row status i v tick).1 = table ∧
      (writeRelation b ss e table row status i v tick).2 =
        sparseSetsInsert ss (b.relationIds.getD i default) e v tick) ∧
    (∀ (c : Column) (row : Nat) (v : Val) (tk : ComponentTicks),
      row < c.data.length → row < c.ticks.length →
      (c.initCell row v tk).data.getD row none = some v ∧
      (c.initCell row v tk).ticks.getD row default = tk) ∧
    (∀ (c : Column) (row : Nat) (v : Val) (tick : Nat),
      row < c.data.length → row < c.ticks.length →
      (c.replace row v tick).data.getD row none = some v ∧
      ((c.replace row v tick).ticks.getD row default).changed = tick ∧
      ((c.replace row v tick).ticks.getD row default).added =
        (c.ticks.getD row default).added) ∧
    (∀ (set : ComponentSparseSet) (e : Entity) (v : Val) (tick : Nat),
      ∃ en, (set.insert e v tick).entries.find? (fun x => x.entity = e) = some en ∧
        en.value = v ∧ en.ticks.changed = tick ∧
        (set.entries.find? (fun x => x.entity = e) = none →
          en.ticks = ComponentTicks.new tick) ∧
        (∀ en₀, set.entries.find? (fun x => x.entity = e) = some en₀ →
          en.ticks.added = en₀.ticks.added)) := by
  refine ⟨?_, ?_, ?_, ?_, ?_, ?_, ?_⟩
  · intro as st ks aid b
    simp only [addBundleToArchetype]
    have hstat := addBundleClassify_status (as.archetypes.getD aid default) ks
      b.relationIds st.sparseSets
    rcases hrec : addBundleClassify (as.archetypes.getD aid default) ks
        b.relationIds st.sparseSets with ⟨status, nt, nsp, ss'⟩
    rw [hrec] at hstat
    have hstat' : status = b.relationIds.map
        (fun s => if (as.archetypes.getD aid default).containsSlot s
          then ComponentStatus.mutated else ComponentStatus.added) := by
      simpa using hstat
    simp only [getD_eq_getElem?] at hrec hstat' ⊢
    split_ifs <;> simp [hstat']
  · intro b ss e table row status i v tick c hst hstatus hcol
    unfold writeRelation
    rw [hst, hstatus]
    dsimp only
    refine ⟨rfl, ?_⟩
    rw [getColumn_updateColumn table (b.relationIds.getD i default)
      (fun column => column.initCell row v (ComponentTicks.new tick))
      (fun c => rfl), hcol]
    rfl
  · intro b ss e table row status i v tick c hst hstatus hcol
    unfold writeRelation
    rw [hst, hstatus]
    dsimp only
    refine ⟨rfl, ?_⟩
    rw [getColumn_updateColumn table (b.relationIds.getD i default)
      (fun column => column.replace row v tick) (fun c => rfl), hcol]
    rfl
  · intro b ss e table row status i v tick hst
    unfold writeRelation
    rw [hst]
    exact ⟨rfl, rfl⟩
  · intro c row v tk hd ht
    exact ⟨by simp [Column.initCell, List.getElem?_set, hd],
           by simp [Column.initCell, List.getElem?_set, ht]⟩
  · intro c row v tick hd ht
    refine ⟨by simp [Column.replace, List.getElem?_set, hd], ?_, ?_⟩
    · simp [Column.replace, List.getElem?_set, ht]
    · simp [Column.replace, List.getElem?_set, ht]
  · intro set e v tick
    unfold ComponentSparseSet.insert
    by_cases hany : set.entries.any (fun en => en.entity = e) = true
    · rw [if_pos hany]
      have hfind : (set.entries.find? (fun x => x.entity = e)).isSome := by
        rw [List.find?_isSome]
        obtain ⟨x, hx, hpx⟩ := List.any_eq_true.mp hany
        exact ⟨x, hx, hpx⟩
      obtain ⟨en₀, hen₀⟩ := Option.isSome_iff_exists.mp hfind
      have hen₀e : en₀.entity = e := by
        have := List.find?_some hen₀
        simpa using this
      refine ⟨{ en₀ with value := v, ticks := { en₀.ticks with changed := tick } },
        ?_, rfl, rfl, ?_, ?_⟩
      · rw [find?_map_pred _ _ _ (fun a => by by_cases h : a.entity = e <;> simp [h])]
        rw [hen₀]
        simp [hen₀e]
      · intro hnone
        rw [hen₀] at hnone
        cases hnone
      · intro en₁ hen₁
        rw [hen₀] at hen₁
        cases hen₁
        rfl
    · rw [if_neg hany]
      have hnone : set.entries.find? (fun x => x.entity = e) = none := by
        rw [List.find?_eq_none]
        intro x hx
        intro hpx
        exact hany (List.any_eq_true.mpr ⟨x, hx, hpx⟩)
      refine ⟨⟨e, v, ComponentTicks.new tick⟩, ?_, rfl, rfl, fun _ => rfl, ?_⟩
      · rw [List.find?_append, hnone]
        simp
      · intro en₀ hen₀
        rw [hnone] at hen₀
        cases hen₀

/-- Witness for C4: the sparse and added branches at concrete inputs. -/
theorem writeRelation_status_semantics_witness :
    ((BundleInfo.mk [⟨1, none⟩] [StorageType.table]).storageTypes.getD 0
        StorageType.table = StorageType.table) ∧
    (([ComponentStatus.added].getD 0 ComponentStatus.added) = ComponentStatus.added) ∧
    ((Table.mk [⟨⟨1, none⟩, [some 5], [⟨0, 0⟩]⟩] [0] [1] 64 64).getColumn ⟨1, none⟩ =
      some ⟨⟨1, none⟩, [some 5], [⟨0, 0⟩]⟩) ∧
    (writeRelation (BundleInfo.mk [⟨1, none⟩] [StorageType.table]) [] 0
        (Table.mk [⟨⟨1, none⟩, [some 5], [⟨0, 0⟩]⟩] [0] [1] 64 64) 0
        [ComponentStatus.added] 0 9 3).1.getColumn ⟨1, none⟩ =
      some ((⟨⟨1, none⟩, [some 5], [⟨0, 0⟩]⟩ : Column).initCell 0 9
        (ComponentTicks.new 3)) :=
  ⟨by decide, by decide, by decide,
    (writeRelation_status_semantics.2.1 (BundleInfo.mk [⟨1, none⟩] [StorageType.table])
      [] 0 (Table.mk [⟨⟨1, none⟩, [some 5], [⟨0, 0⟩]⟩] [0] [1] 64 64) 0
      [ComponentStatus.added] 0 9 3 ⟨⟨1, none⟩, [some 5], [⟨0, 0⟩]⟩
      (by decide) (by decide) (by decide)).2⟩

/-! Claim C1: the entity-location round-trip invariant. -/

theorem locWF_iff (w : World) : locWF w = true ↔ locWFProp w := by
  unfold locWF locWFProp wfCoreProp
  simp only [Bool.and_eq_true, List.all_eq_true, List.mem_range, decide_eq_true_eq,
    beq_iff_eq]
  constructor
  · rintro ⟨⟨⟨hids, hA⟩, hB⟩, hmap⟩
    refine ⟨⟨hids, fun k hk i hi => (hA k hk i hi), ?_⟩, fun kv hkv => hmap kv hkv⟩
    intro eid l hl
    by_cases he : eid < w.meta.length
    · have hb := hB eid he
      rw [hl] at hb
      simpa [and_assoc] using hb
    · rw [getD_of_ge _ _ _ (by omega)] at hl
      cases hl
  · rintro ⟨⟨hids, hA, hB⟩, hmap⟩
    refine ⟨⟨⟨hids, fun k hk i hi => hA k hk i hi⟩, ?_⟩, fun kv hkv => hmap kv hkv⟩
    intro eid _
    cases hm : w.meta.getD eid none with
    | none => rfl
    | some l =>
      have := hB eid l hm
      simpa [and_assoc] using this

theorem wfCoreProp_set_rows (L : List Archetype) (meta : List (Option EntityLocation))
    (k : Nat) (a' : Archetype) (hid : a'.id = (L.getD k default).id)
    (hents : a'.entities = (L.getD k default).entities)
    (h : wfCoreProp L meta) : wfCoreProp (L.set k a') meta := by
  obtain ⟨hids, hA, hB⟩ := h
  by_cases hk : k < L.length
  · have hget : ∀ j, (L.set k a').getD j default =
        if j = k then a' else L.getD j default := by
      intro j
      by_cases hj : j = k
      · subst hj
        rw [getD_set_self _ _ _ _ hk, if_pos rfl]
      · rw [getD_set_ne _ _ _ _ _ (fun hh => hj hh.symm), if_neg hj]
    refine ⟨?_, ?_, ?_⟩
    · intro j hj
      rw [List.length_set] at hj
      rw [hget j]
      by_cases hjk : j = k
      · subst hjk
        rw [if_pos rfl, hid]
        exact hids j hj
      · rw [if_neg hjk]
        exact hids j hj
    · intro j hj i hi
      rw [List.length_set] at hj
      rw [hget j] at hi ⊢
      by_cases hjk : j = k
      · subst hjk
        rw [if_pos rfl] at hi ⊢
        rw [hents] at hi ⊢
        exact hA j hj i hi
      · rw [if_neg hjk] at hi ⊢
        exact hA j hj i hi
    · intro eid l hl
      obtain ⟨h1, h2, h3⟩ := hB eid l hl
      rw [List.length_set, hget l.archetypeId]
      by_cases hjk : l.archetypeId = k
      · rw [if_pos hjk, hents, ← hjk]
        exact ⟨h1, h2, h3⟩
      · rw [if_neg hjk]
        exact ⟨h1, h2, h3⟩
  · rw [List.set_eq_of_length_le (by omega)]
    exact ⟨hids, hA, hB⟩

theorem locWFProp_getIdOrInsert (as : Archetypes)
    (meta : List (Option EntityLocation)) (tid : Nat) (ts ss : List Slot)
    (hcore : wfCoreProp as.archetypes meta)
    (hmap : ∀ kv ∈ as.archetypeIds, kv.2 < as.archetypes.length) :
    wfCoreProp (as.getIdOrInsert tid ts ss).2.archetypes meta ∧
    (∀ kv ∈ (as.getIdOrInsert tid ts ss).2.archetypeIds,
      kv.2 < (as.getIdOrInsert tid ts ss).2.archetypes.length) ∧
    (as.getIdOrInsert tid ts ss).1 < (as.getIdOrInsert tid ts ss).2.archetypes.length ∧
    as.archetypes.length ≤ (as.getIdOrInsert tid ts ss).2.archetypes.length ∧
    (∀ k, k < as.archetypes.length →
      (as.getIdOrInsert tid ts ss).2.archetypes.getD k default =
        as.archetypes.getD k default) := by
  simp only [Archetypes.getIdOrInsert]
  cases hfind : as.archetypeIds.find? (fun kv => kv.1 = (ts, ss)) with
  | some kv =>
    have hkv : kv ∈ as.archetypeIds := List.mem_of_find?_eq_some hfind
    exact ⟨hcore, hmap, hmap kv hkv, Nat.le_refl _, fun k _ => rfl⟩
  | none =>
    obtain ⟨hids, hA, hB⟩ := hcore
    have hlen : (as.archetypes ++ [Archetype.new as.archetypes.length tid ts ss]).length =
        as.archetypes.length + 1 := by simp
    have hget : ∀ k, k < as.archetypes.length →
        (as.archetypes ++ [Archetype.new as.archetypes.length tid ts ss]).getD k default =
          as.archetypes.getD k default := fun k hk => getD_append_left _ _ _ _ hk
    have hgetLast :
        (as.archetypes ++ [Archetype.new as.archetypes.length tid ts ss]).getD
          as.archetypes.length default = Archetype.new as.archetypes.length tid ts ss :=
      getD_concat_self _ _ _
    refine ⟨⟨?_, ?_, ?_⟩, ?_, ?_, by simp, hget⟩
    · intro k hk
      rw [hlen] at hk
      by_cases hkl : k < as.archetypes.length
      · rw [hget k hkl]
        exact hids k hkl
      · have hkeq : k = as.archetypes.length := by omega
        rw [hkeq, hgetLast]
        rfl
    · intro k hk i hi
      rw [hlen] at hk
      by_cases hkl : k < as.archetypes.length
      · rw [hget k hkl] at hi ⊢
        exact hA k hkl i hi
      · have hkeq : k = as.archetypes.length := by omega
        rw [hkeq, hgetLast] at hi
        simp [Archetype.new] at hi
    · intro eid l hl
      obtain ⟨h1, h2, h3⟩ := hB eid l hl
      rw [hlen, hget l.archetypeId h1]
      exact ⟨by omega, h2, h3⟩
    · intro kv hkv
      rw [List.mem_append] at hkv
      rcases hkv with hkv | hkv
      · have := hmap kv hkv
        simp only [hlen]
        omega
      · simp at hkv
        subst hkv
        simp
    · simp

/-- Core preservation argument shared by the structural parts of
`insert_bundle`, `remove_bundle`, `remove_relation`,
`remove_bundle_intersection` and `despawn`'s cousin: swap-removing a live
entity out of its source archetype (with the swapped entity's location
redirected to the vacated index), appending it to a different destination
archetype and storing its new location preserves the location invariant.
`rowsA`/`rowsD` are the table-row vectors the two touched archetypes end up
with — the invariant does not read them. -/
theorem wfCore_move (L : List Archetype) (meta : List (Option EntityLocation))
    (e src idx dst : Nat) (A1 D1 : Archetype)
    (hwf : wfCoreProp L meta)
    (hsrc : src < L.length) (hdst : dst < L.length) (hne : dst ≠ src)
    (hidx : idx < (L.getD src default).entities.length)
    (he : (L.getD src default).entities.getD idx 0 = e)
    (hA1id : A1.id = (L.getD src default).id)
    (hA1ents : A1.entities = swapRemoveList (L.getD src default).entities idx)
    (hD1id : D1.id = (L.getD dst default).id)
    (hD1ents : D1.entities = (L.getD dst default).entities ++ [e]) :
    wfCoreProp ((L.set src A1).set dst D1)
      ((if idx = (L.getD src default).entities.length - 1 then meta
        else meta.set
          ((L.getD src default).entities.getD
            ((L.getD src default).entities.length - 1) 0)
          (some ⟨src, idx⟩)).set e
        (some ⟨dst, (L.getD dst default).entities.length⟩)) := by
  obtain ⟨hids, hA, hB⟩ := hwf
  have hene : (L.getD src default).entities ≠ [] :=
    List.ne_nil_of_length_pos (by omega)
  have hlen' :
      (swapRemoveList (L.getD src default).entities idx).length =
        (L.getD src default).entities.length - 1 :=
    length_swapRemoveList _ _ hene
  have hgetEnts : ∀ j, j < (L.getD src default).entities.length - 1 →
      (swapRemoveList (L.getD src default).entities idx).getD j 0 =
        if j = idx then
          (L.getD src default).entities.getD
            ((L.getD src default).entities.length - 1) 0
        else (L.getD src default).entities.getD j 0 :=
    fun j hj => getD_swapRemoveList _ _ _ _ hidx hj
  have hmetaE : meta.getD e none = some ⟨src, idx⟩ := by
    have h2 := (hA src hsrc idx hidx).2
    rwa [he] at h2
  have heb : e < meta.length := by
    have h1 := (hA src hsrc idx hidx).1
    rwa [he] at h1
  have hocc : ∀ k, k < L.length → ∀ i, i < (L.getD k default).entities.length →
      meta.getD ((L.getD k default).entities.getD i 0) none = some ⟨k, i⟩ :=
    fun k hk i hi => (hA k hk i hi).2
  have hoccE : ∀ k, k < L.length → ∀ i, i < (L.getD k default).entities.length →
      (L.getD k default).entities.getD i 0 = e → k = src ∧ i = idx := by
    intro k hk i hi hx
    have h1 := hocc k hk i hi
    rw [hx, hmetaE] at h1
    have h2 := Option.some.inj h1
    injection h2 with h2a h2b
    exact ⟨h2a.symm, h2b.symm⟩
  have hseFacts : idx ≠ (L.getD src default).entities.length - 1 →
      (L.getD src default).entities.getD
          ((L.getD src default).entities.length - 1) 0 < meta.length ∧
      meta.getD ((L.getD src default).entities.getD
          ((L.getD src default).entities.length - 1) 0) none =
        some ⟨src, (L.getD src default).entities.length - 1⟩ ∧
      (L.getD src default).entities.getD
          ((L.getD src default).entities.length - 1) 0 ≠ e := by
    intro hlast
    have hn1 : (L.getD src default).entities.length - 1 <
        (L.getD src default).entities.length := by omega
    refine ⟨(hA src hsrc _ hn1).1, (hA src hsrc _ hn1).2, ?_⟩
    intro hse_eq
    have h2 := (hA src hsrc _ hn1).2
    rw [hse_eq, hmetaE] at h2
    have h3 := Option.some.inj h2
    injection h3 with h3a h3b
    exact hlast h3b
  have hoccSe : idx ≠ (L.getD src default).entities.length - 1 →
      ∀ k, k < L.length → ∀ i, i < (L.getD k default).entities.length →
      (L.getD k default).entities.getD i 0 =
        (L.getD src default).entities.getD
          ((L.getD src default).entities.length - 1) 0 →
      k = src ∧ i = (L.getD src default).entities.length - 1 := by
    intro hlast k hk i hi hx
    have h1 := hocc k hk i hi
    rw [hx, (hseFacts hlast).2.1] at h1
    have h2 := Option.some.inj h1
    injection h2 with h2a h2b
    exact ⟨h2a.symm, h2b.symm⟩
  have hLlen : ((L.set src A1).set dst D1).length = L.length := by simp
  have hLget : ∀ j, ((L.set src A1).set dst D1).getD j default =
      if j = dst then D1
      else if j = src then A1
      else L.getD j default := by
    intro j
    by_cases hjd : j = dst
    · subst hjd
      rw [if_pos rfl]
      exact getD_set_self _ _ _ _ (by rw [List.length_set]; exact hdst)
    · rw [if_neg hjd, getD_set_ne _ _ _ _ _ (fun hh => hjd hh.symm)]
      by_cases hjs : j = src
      · subst hjs
        rw [if_pos rfl]
        exact getD_set_self _ _ _ _ hsrc
      · rw [if_neg hjs, getD_set_ne _ _ _ _ _ (fun hh => hjs hh.symm)]
  have hmlen :
      ((if idx = (L.getD src default).entities.length - 1 then meta
        else meta.set
          ((L.getD src default).entities.getD
            ((L.getD src default).entities.length - 1) 0)
          (some ⟨src, idx⟩)).set e
        (some ⟨dst, (L.getD dst default).entities.length⟩)).length = meta.length := by
    split_ifs <;> simp
  have hmetaGetE :
      ((if idx = (L.getD src default).entities.length - 1 then meta
        else meta.set
          ((L.getD src default).entities.getD
            ((L.getD src default).entities.length - 1) 0)
          (some ⟨src, idx⟩)).set e
        (some ⟨dst, (L.getD dst default).entities.length⟩)).getD e none =
        some ⟨dst, (L.getD dst default).entities.length⟩ := by
    apply getD_set_self
    split_ifs <;> simpa using heb
  have hmetaGet : ∀ x, x ≠ e →
      (idx = (L.getD src default).entities.length - 1 ∨
        x ≠ (L.getD src default).entities.getD
          ((L.getD src default).entities.length - 1) 0) →
      ((if idx = (L.getD src default).entities.length - 1 then meta
        else meta.set
          ((L.getD src default).entities.getD
            ((L.getD src default).entities.length - 1) 0)
          (some ⟨src, idx⟩)).set e
        (some ⟨dst, (L.getD dst default).entities.length⟩)).getD x none =
        meta.getD x none := by
    intro x hxe hxse
    rw [getD_set_ne _ _ _ _ _ (fun hh => hxe hh.symm)]
    by_cases hlast : idx = (L.getD src default).entities.length - 1
    · rw [if_pos hlast]
    · rw [if_neg hlast]
      rcases hxse with h | hxse
      · exact absurd h hlast
      · rw [getD_set_ne _ _ _ _ _ (fun hh => hxse hh.symm)]
  have hmetaGetSe : idx ≠ (L.getD src default).entities.length - 1 →
      ((if idx = (L.getD src default).entities.length - 1 then meta
        else meta.set
          ((L.getD src default).entities.getD
            ((L.getD src default).entities.length - 1) 0)
          (some ⟨src, idx⟩)).set e
        (some ⟨dst, (L.getD dst default).entities.length⟩)).getD
        ((L.getD src default).entities.getD
          ((L.getD src default).entities.length - 1) 0) none =
        some ⟨src, idx⟩ := by
    intro hlast
    obtain ⟨hseb, hmse, hsene⟩ := hseFacts hlast
    rw [getD_set_ne _ _ _ _ _ (fun hh => hsene hh.symm)]
    rw [if_neg hlast]
    exact getD_set_self _ _ _ _ hseb
  refine ⟨?_, ?_, ?_⟩
  · -- ids stay aligned
    intro k hk
    rw [hLlen] at hk
    rw [hLget k]
    by_cases hkd : k = dst
    · rw [if_pos hkd, hD1id, hkd]
      exact hids dst hdst
    · rw [if_neg hkd]
      by_cases hks : k = src
      · rw [if_pos hks, hA1id, hks]
        exact hids src hsrc
      · rw [if_neg hks]
        exact hids k hk
  · -- every listed entity's stored location is its position
    intro k hk i hi
    rw [hLlen] at hk
    rw [hLget k] at hi ⊢
    by_cases hkd : k = dst
    · rw [if_pos hkd] at hi ⊢
      rw [hkd]
      rw [hD1ents] at hi ⊢
      simp only [List.length_append, List.length_cons, List.length_nil] at hi
      by_cases hie : i = (L.getD dst default).entities.length
      · subst hie
        rw [getD_concat_self]
        exact ⟨by rw [hmlen]; exact heb, hmetaGetE⟩
      · have him : i < (L.getD dst default).entities.length := by omega
        rw [getD_append_left _ _ _ _ him]
        have hxe : (L.getD dst default).entities.getD i 0 ≠ e := by
          intro hx
          exact hne (hoccE dst hdst i him hx).1
        have hxse : idx = (L.getD src default).entities.length - 1 ∨
            (L.getD dst default).entities.getD i 0 ≠
              (L.getD src default).entities.getD
                ((L.getD src default).entities.length - 1) 0 := by
          by_cases hlast : idx = (L.getD src default).entities.length - 1
          · exact Or.inl hlast
          · refine Or.inr ?_
            intro hx
            exact hne (hoccSe hlast dst hdst i him hx).1
        rw [hmetaGet _ hxe hxse]
        exact ⟨by rw [hmlen]; exact (hA dst hdst i him).1, hocc dst hdst i him⟩
    · rw [if_neg hkd] at hi ⊢
      by_cases hks : k = src
      · rw [if_pos hks] at hi ⊢
        rw [hks]
        rw [hA1ents] at hi ⊢
        have hin : i < (L.getD src default).entities.length - 1 := by
          rw [← hlen']
          exact hi
        rw [hgetEnts i hin]
        by_cases hii : i = idx
        · subst hii
          rw [if_pos rfl]
          have hlast : i ≠ (L.getD src default).entities.length - 1 := by omega
          exact ⟨by rw [hmlen]; exact (hseFacts hlast).1, hmetaGetSe hlast⟩
        · rw [if_neg hii]
          have hilt : i < (L.getD src default).entities.length := by omega
          have hxe : (L.getD src default).entities.getD i 0 ≠ e := by
            intro hx
            exact hii (hoccE src hsrc i hilt hx).2
          have hxse : idx = (L.getD src default).entities.length - 1 ∨
              (L.getD src default).entities.getD i 0 ≠
                (L.getD src default).entities.getD
                  ((L.getD src default).entities.length - 1) 0 := by
            by_cases hlast : idx = (L.getD src default).entities.length - 1
            · exact Or.inl hlast
            · refine Or.inr ?_
              intro hx
              have := (hoccSe hlast src hsrc i hilt hx).2
              omega
          rw [hmetaGet _ hxe hxse]
          exact ⟨by rw [hmlen]; exact (hA src hsrc i hilt).1, hocc src hsrc i hilt⟩
      · rw [if_neg hks] at hi ⊢
        have hxe : (L.getD k default).entities.getD i 0 ≠ e := by
          intro hx
          exact hks (hoccE k hk i hi hx).1
        have hxse : idx = (L.getD src default).entities.length - 1 ∨
            (L.getD k default).entities.getD i 0 ≠
              (L.getD src default).entities.getD
                ((L.getD src default).entities.length - 1) 0 := by
          by_cases hlast : idx = (L.getD src default).entities.length - 1
          · exact Or.inl hlast
          · refine Or.inr ?_
            intro hx
            exact hks (hoccSe hlast k hk i hi hx).1
        rw [hmetaGet _ hxe hxse]
        exact ⟨by rw [hmlen]; exact (hA k hk i hi).1, hocc k hk i hi⟩
  · -- every stored location points back at its entity
    intro eid l hl
    by_cases heid : eid = e
    · subst heid
      rw [hmetaGetE] at hl
      have hleq := Option.some.inj hl
      subst hleq
      refine ⟨by rw [hLlen]; exact hdst, ?_, ?_⟩
      · rw [hLget dst, if_pos rfl, hD1ents]
        simp
      · rw [hLget dst, if_pos rfl, hD1ents]
        exact getD_concat_self _ _ _
    · rw [getD_set_ne _ _ _ _ _ (fun hh => heid hh.symm)] at hl
      have hfinish : meta.getD eid none = some l →
          (idx = (L.getD src default).entities.length - 1 ∨
            eid ≠ (L.getD src default).entities.getD
              ((L.getD src default).entities.length - 1) 0) →
          l.archetypeId < ((L.set src A1).set dst D1).length ∧
          l.index < (((L.set src A1).set dst D1).getD l.archetypeId
            default).entities.length ∧
          (((L.set src A1).set dst D1).getD l.archetypeId
            default).entities.getD l.index 0 = eid := by
        intro hl' hcase
        obtain ⟨h1, h2, h3⟩ := hB eid l hl'
        refine ⟨by rw [hLlen]; exact h1, ?_, ?_⟩
        · rw [hLget l.archetypeId]
          by_cases hld : l.archetypeId = dst
          · rw [if_pos hld, hD1ents]
            rw [hld] at h2
            simp only [List.length_append, List.length_cons, List.length_nil]
            omega
          · rw [if_neg hld]
            by_cases hls : l.archetypeId = src
            · rw [if_pos hls, hA1ents]
              rw [hls] at h2 h3
              have hlidx : l.index ≠ idx := by
                intro hh
                rw [hh, he] at h3
                exact heid h3.symm
              have hlion : l.index ≠ (L.getD src default).entities.length - 1 := by
                rcases hcase with hlast | hse
                · omega
                · intro hh
                  rw [hh] at h3
                  exact hse h3.symm
              rw [hlen']
              omega
            · rw [if_neg hls]
              exact h2
        · rw [hLget l.archetypeId]
          by_cases hld : l.archetypeId = dst
          · rw [if_pos hld, hD1ents]
            rw [hld] at h2 h3
            rw [getD_append_left _ _ _ _ h2]
            exact h3
          · rw [if_neg hld]
            by_cases hls : l.archetypeId = src
            · rw [if_pos hls, hA1ents]
              rw [hls] at h2 h3
              have hlidx : l.index ≠ idx := by
                intro hh
                rw [hh, he] at h3
                exact heid h3.symm
              have hlion : l.index ≠ (L.getD src default).entities.length - 1 := by
                rcases hcase with hlast | hse
                · omega
                · intro hh
                  rw [hh] at h3
                  exact hse h3.symm
              rw [hgetEnts l.index (by omega), if_neg hlidx]
              exact h3
            · rw [if_neg hls]
              exact h3
      by_cases hlast : idx = (L.getD src default).entities.length - 1
      · rw [if_pos hlast] at hl
        exact hfinish hl (Or.inl hlast)
      · by_cases heidse : eid = (L.getD src default).entities.getD
            ((L.getD src default).entities.length - 1) 0
        · subst heidse
          rw [if_neg hlast, getD_set_self _ _ _ _ (hseFacts hlast).1] at hl
          have hleq := Option.some.inj hl
          subst hleq
          refine ⟨by rw [hLlen]; exact hsrc, ?_, ?_⟩
          · rw [hLget src, if_neg (fun hh => hne hh.symm), if_pos rfl, hA1ents]
            rw [hlen']
            show idx < (L.getD src default).entities.length - 1
            omega
          · rw [hLget src, if_neg (fun hh => hne hh.symm), if_pos rfl, hA1ents]
            rw [hgetEnts idx (by omega), if_pos rfl]
        · rw [if_neg hlast,
            getD_set_ne _ _ _ _ _ (fun hh => heidse hh.symm)] at hl
          exact hfinish hl (Or.inr heidse)


theorem locWFProp_mk (w : World)
    (h1 : wfCoreProp w.archetypes.archetypes w.meta)
    (h2 : ∀ kv ∈ w.archetypes.archetypeIds, kv.2 < w.archetypes.archetypes.length) :
    locWFProp w := ⟨h1, h2⟩

/-- The structural move (shared by all the bundle operations) preserves the
location invariant: the swapped-entity fixup, the destination allocation and
the new stored location keep every archetype/location pair consistent. -/
theorem locWFProp_structuralMove (w : World) (e : Entity) (loc : EntityLocation)
    (dst : Nat) (k : MoveKind)
    (hwf : locWFProp w)
    (hloc : w.meta.getD e none = some loc)
    (hdst : dst < w.archetypes.archetypes.length)
    (hne : dst ≠ loc.archetypeId) :
    locWFProp (structuralMove w e loc dst k).2 := by
  obtain ⟨hcore, hmap⟩ := hwf
  obtain ⟨hsrc, hidx, he⟩ := hcore.2.2 e loc hloc
  have hids := hcore.1
  have hDid : (w.archetypes.archetypes.getD dst default).id = dst := hids dst hdst
  have hene : (w.archetypes.archetypes.getD loc.archetypeId default).entities ≠ [] :=
    List.ne_nil_of_length_pos (by omega)
  simp only [structuralMove, Archetype.swapRemove, Archetype.allocate]
  have hgetDst : ∀ a' : Archetype,
      (w.archetypes.archetypes.set loc.archetypeId a').getD dst default =
        w.archetypes.archetypes.getD dst default :=
    fun _ => getD_set_ne _ _ _ _ _ (fun hh => hne hh.symm)
  rw [hgetDst, hDid]
  have happly : ∀ r : Nat,
      wfCoreProp
        ((w.archetypes.archetypes.set loc.archetypeId
          { w.archetypes.archetypes.getD loc.archetypeId default with
            entities := swapRemoveList
              (w.archetypes.archetypes.getD loc.archetypeId default).entities
              loc.index,
            entityTableRows := swapRemoveList
              (w.archetypes.archetypes.getD loc.archetypeId
                default).entityTableRows loc.index }).set dst
          { id := dst,
            entities := (w.archetypes.archetypes.getD dst default).entities ++ [e],
            entityTableRows :=
              (w.archetypes.archetypes.getD dst default).entityTableRows ++ [r],
            tableId := (w.archetypes.archetypes.getD dst default).tableId,
            tableComponents :=
              (w.archetypes.archetypes.getD dst default).tableComponents,
            sparseSetComponents :=
              (w.archetypes.archetypes.getD dst default).sparseSetComponents })
        ((if loc.index =
            (w.archetypes.archetypes.getD loc.archetypeId
              default).entities.length - 1
          then w.meta
          else w.meta.set
            ((w.archetypes.archetypes.getD loc.archetypeId default).entities.getD
              ((w.archetypes.archetypes.getD loc.archetypeId
                default).entities.length - 1) 0)
            (some ⟨loc.archetypeId, loc.index⟩)).set e
          (some ⟨dst,
            (w.archetypes.archetypes.getD dst default).entities.length⟩)) :=
    fun r => wfCore_move w.archetypes.archetypes w.meta e loc.archetypeId
      loc.index dst _ _ hcore hsrc hdst hne hidx he rfl rfl hDid.symm rfl
  by_cases hlast : loc.index =
      (w.archetypes.archetypes.getD loc.archetypeId default).entities.length - 1
  · rw [if_pos hlast]
    by_cases htbl : (w.archetypes.archetypes.getD loc.archetypeId default).tableId =
        (w.archetypes.archetypes.getD dst default).tableId
    · rw [if_pos htbl]
      refine locWFProp_mk _ ?_ ?_
      · have h := happly
          ((w.archetypes.archetypes.getD loc.archetypeId
            default).entityTableRows.getD loc.index 0)
        rw [if_pos hlast] at h
        exact h
      · intro kv hkv
        simp only [List.length_set]
        exact hmap kv hkv
    · rw [if_neg htbl]
      have happly2 := fun r : Nat => by
        have h := happly r
        rw [if_pos hlast] at h
        exact h
      split
      next se hsw =>
        split
        next sl hms =>
          refine locWFProp_mk _ ?_ ?_
          · exact wfCoreProp_set_rows _ _ _ _ rfl rfl (happly2 _)
          · intro kv hkv
            simp only [List.length_set]
            exact hmap kv hkv
        next hms =>
          refine locWFProp_mk _ ?_ ?_
          · exact happly2 _
          · intro kv hkv
            simp only [List.length_set]
            exact hmap kv hkv
      next hsw =>
        refine locWFProp_mk _ ?_ ?_
        · exact happly2 _
        · intro kv hkv
          simp only [List.length_set]
          exact hmap kv hkv
  · rw [if_neg hlast]
    have hget2 := get?_swapRemoveList
      (w.archetypes.archetypes.getD loc.archetypeId default).entities loc.index
      loc.index hidx (by omega)
    rw [if_pos rfl] at hget2
    have hgetv :
        (w.archetypes.archetypes.getD loc.archetypeId default).entities[
          (w.archetypes.archetypes.getD loc.archetypeId
            default).entities.length - 1]? =
        some ((w.archetypes.archetypes.getD loc.archetypeId default).entities.getD
          ((w.archetypes.archetypes.getD loc.archetypeId
            default).entities.length - 1) 0) := by
      rcases hx : (w.archetypes.archetypes.getD loc.archetypeId default).entities[
          (w.archetypes.archetypes.getD loc.archetypeId
            default).entities.length - 1]? with _ | v
      · rw [List.getElem?_eq_none_iff] at hx
        omega
      · rw [getD_eq_getElem?, hx]
        rfl
    rw [hgetv] at hget2
    rw [hget2]
    by_cases htbl : (w.archetypes.archetypes.getD loc.archetypeId default).tableId =
        (w.archetypes.archetypes.getD dst default).tableId
    · rw [if_pos htbl]
      refine locWFProp_mk _ ?_ ?_
      · have h := happly
          ((w.archetypes.archetypes.getD loc.archetypeId
            default).entityTableRows.getD loc.index 0)
        rw [if_neg hlast] at h
        exact h
      · intro kv hkv
        simp only [List.length_set]
        exact hmap kv hkv
    · rw [if_neg htbl]
      have happly2 := fun r : Nat => by
        have h := happly r
        rw [if_neg hlast] at h
        exact h
      split
      next se hsw =>
        split
        next sl hms =>
          refine locWFProp_mk _ ?_ ?_
          · exact wfCoreProp_set_rows _ _ _ _ rfl rfl (happly2 _)
          · intro kv hkv
            simp only [List.length_set]
            exact hmap kv hkv
        next hms =>
          refine locWFProp_mk _ ?_ ?_
          · exact happly2 _
          · intro kv hkv
            simp only [List.length_set]
            exact hmap kv hkv
      next hsw =>
        refine locWFProp_mk _ ?_ ?_
        · exact happly2 _
        · intro kv hkv
          simp only [List.length_set]
          exact hmap kv hkv

/-- Core preservation argument for `despawn`: clearing a live entity's stored
location and swap-removing it from its source archetype (with the swapped
entity's location redirected to the vacated index) preserves the location
invariant. -/
theorem wfCore_despawn (L : List Archetype) (meta : List (Option EntityLocation))
    (e src idx : Nat) (A1 : Archetype)
    (hwf : wfCoreProp L meta)
    (hsrc : src < L.length)
    (hidx : idx < (L.getD src default).entities.length)
    (he : (L.getD src default).entities.getD idx 0 = e)
    (hA1id : A1.id = (L.getD src default).id)
    (hA1ents : A1.entities = swapRemoveList (L.getD src default).entities idx) :
    wfCoreProp (L.set src A1)
      (if idx = (L.getD src default).entities.length - 1 then meta.set e none
       else (meta.set e none).set
         ((L.getD src default).entities.getD
           ((L.getD src default).entities.length - 1) 0)
         (some ⟨src, idx⟩)) := by
  obtain ⟨hids, hA, hB⟩ := hwf
  have hene : (L.getD src default).entities ≠ [] :=
    List.ne_nil_of_length_pos (by omega)
  have hlen' :
      (swapRemoveList (L.getD src default).entities idx).length =
        (L.getD src default).entities.length - 1 :=
    length_swapRemoveList _ _ hene
  have hgetEnts : ∀ j, j < (L.getD src default).entities.length - 1 →
      (swapRemoveList (L.getD src default).entities idx).getD j 0 =
        if j = idx then
          (L.getD src default).entities.getD
            ((L.getD src default).entities.length - 1) 0
        else (L.getD src default).entities.getD j 0 :=
    fun j hj => getD_swapRemoveList _ _ _ _ hidx hj
  have hmetaE : meta.getD e none = some ⟨src, idx⟩ := by
    have h2 := (hA src hsrc idx hidx).2
    rwa [he] at h2
  have heb : e < meta.length := by
    have h1 := (hA src hsrc idx hidx).1
    rwa [he] at h1
  have hocc : ∀ k, k < L.length → ∀ i, i < (L.getD k default).entities.length →
      meta.getD ((L.getD k default).entities.getD i 0) none = some ⟨k, i⟩ :=
    fun k hk i hi => (hA k hk i hi).2
  have hoccE : ∀ k, k < L.length → ∀ i, i < (L.getD k default).entities.length →
      (L.getD k default).entities.getD i 0 = e → k = src ∧ i = idx := by
    intro k hk i hi hx
    have h1 := hocc k hk i hi
    rw [hx, hmetaE] at h1
    have h2 := Option.some.inj h1
    injection h2 with h2a h2b
    exact ⟨h2a.symm, h2b.symm⟩
  have hseFacts : idx ≠ (L.getD src default).entities.length - 1 →
      (L.getD src default).entities.getD
          ((L.getD src default).entities.length - 1) 0 < meta.length ∧
      meta.getD ((L.getD src default).entities.getD
          ((L.getD src default).entities.length - 1) 0) none =
        some ⟨src, (L.getD src default).entities.length - 1⟩ ∧
      (L.getD src default).entities.getD
          ((L.getD src default).entities.length - 1) 0 ≠ e := by
    intro hlast
    have hn1 : (L.getD src default).entities.length - 1 <
        (L.getD src default).entities.length := by omega
    refine ⟨(hA src hsrc _ hn1).1, (hA src hsrc _ hn1).2, ?_⟩
    intro hse_eq
    have h2 := (hA src hsrc _ hn1).2
    rw [hse_eq, hmetaE] at h2
    have h3 := Option.some.inj h2
    injection h3 with h3a h3b
    exact hlast h3b
  have hoccSe : idx ≠ (L.getD src default).entities.length - 1 →
      ∀ k, k < L.length → ∀ i, i < (L.getD k default).entities.length →
      (L.getD k default).entities.getD i 0 =
        (L.getD src default).entities.getD
          ((L.getD src default).entities.length - 1) 0 →
      k = src ∧ i = (L.getD src default).entities.length - 1 := by
    intro hlast k hk i hi hx
    have h1 := hocc k hk i hi
    rw [hx, (hseFacts hlast).2.1] at h1
    have h2 := Option.some.inj h1
    injection h2 with h2a h2b
    exact ⟨h2a.symm, h2b.symm⟩
  have hLlen : (L.set src A1).length = L.length := by simp
  have hLget : ∀ j, (L.set src A1).getD j default =
      if j = src then A1 else L.getD j default := by
    intro j
    by_cases hjs : j = src
    · subst hjs
      rw [if_pos rfl]
      exact getD_set_self _ _ _ _ hsrc
    · rw [if_neg hjs, getD_set_ne _ _ _ _ _ (fun hh => hjs hh.symm)]
  have hmlen :
      (if idx = (L.getD src default).entities.length - 1 then meta.set e none
       else (meta.set e none).set
         ((L.getD src default).entities.getD
           ((L.getD src default).entities.length - 1) 0)
         (some ⟨src, idx⟩)).length = meta.length := by
    split_ifs <;> simp
  have hmetaGetE :
      (if idx = (L.getD src default).entities.length - 1 then meta.set e none
       else (meta.set e none).set
         ((L.getD src default).entities.getD
           ((L.getD src default).entities.length - 1) 0)
         (some ⟨src, idx⟩)).getD e none = none := by
    by_cases hlast : idx = (L.getD src default).entities.length - 1
    · rw [if_pos hlast]
      exact getD_set_self _ _ _ _ heb
    · rw [if_neg hlast]
      rw [getD_set_ne _ _ _ _ _ (hseFacts hlast).2.2]
      exact getD_set_self _ _ _ _ heb
  have hmetaGet : ∀ x, x ≠ e →
      (idx = (L.getD src default).entities.length - 1 ∨
        x ≠ (L.getD src default).entities.getD
          ((L.getD src default).entities.length - 1) 0) →
      (if idx = (L.getD src default).entities.length - 1 then meta.set e none
       else (meta.set e none).set
         ((L.getD src default).entities.getD
           ((L.getD src default).entities.length - 1) 0)
         (some ⟨src, idx⟩)).getD x none = meta.getD x none := by
    intro x hxe hxse
    by_cases hlast : idx = (L.getD src default).entities.length - 1
    · rw [if_pos hlast, getD_set_ne _ _ _ _ _ (fun hh => hxe hh.symm)]
    · rw [if_neg hlast]
      rcases hxse with h | hxse
      · exact absurd h hlast
      · rw [getD_set_ne _ _ _ _ _ (fun hh => hxse hh.symm),
          getD_set_ne _ _ _ _ _ (fun hh => hxe hh.symm)]
  have hmetaGetSe : idx ≠ (L.getD src default).entities.length - 1 →
      (if idx = (L.getD src default).entities.length - 1 then meta.set e none
       else (meta.set e none).set
         ((L.getD src default).entities.getD
           ((L.getD src default).entities.length - 1) 0)
         (some ⟨src, idx⟩)).getD
        ((L.getD src default).entities.getD
          ((L.getD src default).entities.length - 1) 0) none =
        some ⟨src, idx⟩ := by
    intro hlast
    rw [if_neg hlast]
    apply getD_set_self
    simp only [List.length_set]
    exact (hseFacts hlast).1
  refine ⟨?_, ?_, ?_⟩
  · -- ids stay aligned
    intro k hk
    rw [hLlen] at hk
    rw [hLget k]
    by_cases hks : k = src
    · rw [if_pos hks, hA1id, hks]
      exact hids src hsrc
    · rw [if_neg hks]
      exact hids k hk
  · -- every listed entity's stored location is its position
    intro k hk i hi
    rw [hLlen] at hk
    rw [hLget k] at hi ⊢
    by_cases hks : k = src
    · rw [if_pos hks] at hi ⊢
      rw [hks]
      rw [hA1ents] at hi ⊢
      have hin : i < (L.getD src default).entities.length - 1 := by
        rw [← hlen']
        exact hi
      rw [hgetEnts i hin]
      by_cases hii : i = idx
      · subst hii
        rw [if_pos rfl]
        have hlast : i ≠ (L.getD src default).entities.length - 1 := by omega
        exact ⟨by rw [hmlen]; exact (hseFacts hlast).1, hmetaGetSe hlast⟩
      · rw [if_neg hii]
        have hilt : i < (L.getD src default).entities.length := by omega
        have hxe : (L.getD src default).entities.getD i 0 ≠ e := by
          intro hx
          exact hii (hoccE src hsrc i hilt hx).2
        have hxse : idx = (L.getD src default).entities.length - 1 ∨
            (L.getD src default).entities.getD i 0 ≠
              (L.getD src default).entities.getD
                ((L.getD src default).entities.length - 1) 0 := by
          by_cases hlast : idx = (L.getD src default).entities.length - 1
          · exact Or.inl hlast
          · refine Or.inr ?_
            intro hx
            have := (hoccSe hlast src hsrc i hilt hx).2
            omega
        rw [hmetaGet _ hxe hxse]
        exact ⟨by rw [hmlen]; exact (hA src hsrc i hilt).1, hocc src hsrc i hilt⟩
    · rw [if_neg hks] at hi ⊢
      have hxe : (L.getD k default).entities.getD i 0 ≠ e := by
        intro hx
        exact hks (hoccE k hk i hi hx).1
      have hxse : idx = (L.getD src default).entities.length - 1 ∨
          (L.getD k default).entities.getD i 0 ≠
            (L.getD src default).entities.getD
              ((L.getD src default).entities.length - 1) 0 := by
        by_cases hlast : idx = (L.getD src default).entities.length - 1
        · exact Or.inl hlast
        · refine Or.inr ?_
          intro hx
          exact hks (hoccSe hlast k hk i hi hx).1
      rw [hmetaGet _ hxe hxse]
      exact ⟨by rw [hmlen]; exact (hA k hk i hi).1, hocc k hk i hi⟩
  · -- every stored location points back at its entity
    intro eid l hl
    by_cases heid : eid = e
    · subst heid
      rw [hmetaGetE] at hl
      exact Option.noConfusion hl
    · have hfinish : meta.getD eid none = some l →
          (idx = (L.getD src default).entities.length - 1 ∨
            eid ≠ (L.getD src default).entities.getD
              ((L.getD src default).entities.length - 1) 0) →
          l.archetypeId < (L.set src A1).length ∧
          l.index < ((L.set src A1).getD l.archetypeId
            default).entities.length ∧
          ((L.set src A1).getD l.archetypeId
            default).entities.getD l.index 0 = eid := by
        intro hl' hcase
        obtain ⟨h1, h2, h3⟩ := hB eid l hl'
        refine ⟨by rw [hLlen]; exact h1, ?_, ?_⟩
        · rw [hLget l.archetypeId]
          by_cases hls : l.archetypeId = src
          · rw [if_pos hls, hA1ents]
            rw [hls] at h2 h3
            have hlidx : l.index ≠ idx := by
              intro hh
              rw [hh, he] at h3
              exact heid h3.symm
            have hlion : l.index ≠ (L.getD src default).entities.length - 1 := by
              rcases hcase with hlast | hse
              · omega
              · intro hh
                rw [hh] at h3
                exact hse h3.symm
            rw [hlen']
            omega
          · rw [if_neg hls]
            exact h2
        · rw [hLget l.archetypeId]
          by_cases hls : l.archetypeId = src
          · rw [if_pos hls, hA1ents]
            rw [hls] at h2 h3
            have hlidx : l.index ≠ idx := by
              intro hh
              rw [hh, he] at h3
              exact heid h3.symm
            have hlion : l.index ≠ (L.getD src default).entities.length - 1 := by
              rcases hcase with hlast | hse
              · omega
              · intro hh
                rw [hh] at h3
                exact hse h3.symm
            rw [hgetEnts l.index (by omega), if_neg hlidx]
            exact h3
          · rw [if_neg hls]
            exact h3
      by_cases hlast : idx = (L.getD src default).entities.length - 1
      · rw [if_pos hlast, getD_set_ne _ _ _ _ _ (fun hh => heid hh.symm)] at hl
        exact hfinish hl (Or.inl hlast)
      · by_cases heidse : eid = (L.getD src default).entities.getD
            ((L.getD src default).entities.length - 1) 0
        · subst heidse
          rw [hmetaGetSe hlast] at hl
          have hleq := Option.some.inj hl
          subst hleq
          refine ⟨by rw [hLlen]; exact hsrc, ?_, ?_⟩
          · rw [hLget src, if_pos rfl, hA1ents]
            rw [hlen']
            show idx < (L.getD src default).entities.length - 1
            omega
          · rw [hLget src, if_pos rfl, hA1ents]
            rw [hgetEnts idx (by omega), if_pos rfl]
        · rw [if_neg hlast,
            getD_set_ne _ _ _ _ _ (fun hh => heidse hh.symm),
            getD_set_ne _ _ _ _ _ (fun hh => heid hh.symm)] at hl
          exact hfinish hl (Or.inr heidse)

/-- `despawn` preserves the location invariant: the dead entity's stored
location is cleared, the swapped entity (if any) is redirected to the vacated
archetype index, and the table-row fixup touches only row vectors. -/
theorem locWFProp_despawn (w : World) (e : Entity)
    (hwf : locWFProp w) : locWFProp (despawn w e) := by
  obtain ⟨hcore, hmap⟩ := hwf
  rcases hloc : w.meta.getD e none with _ | loc
  · simp only [despawn, hloc]
    exact ⟨hcore, hmap⟩
  · obtain ⟨hsrc, hidx, he⟩ := hcore.2.2 e loc hloc
    have hene : (w.archetypes.archetypes.getD loc.archetypeId default).entities ≠ [] :=
      List.ne_nil_of_length_pos (by omega)
    simp only [despawn, hloc, Archetype.swapRemove]
    have happly : wfCoreProp
        (w.archetypes.archetypes.set loc.archetypeId
          { w.archetypes.archetypes.getD loc.archetypeId default with
            entities := swapRemoveList
              (w.archetypes.archetypes.getD loc.archetypeId default).entities
              loc.index,
            entityTableRows := swapRemoveList
              (w.archetypes.archetypes.getD loc.archetypeId
                default).entityTableRows loc.index })
        (if loc.index =
            (w.archetypes.archetypes.getD loc.archetypeId
              default).entities.length - 1
         then w.meta.set e none
         else (w.meta.set e none).set
           ((w.archetypes.archetypes.getD loc.archetypeId default).entities.getD
             ((w.archetypes.archetypes.getD loc.archetypeId
               default).entities.length - 1) 0)
           (some ⟨loc.archetypeId, loc.index⟩)) :=
      wfCore_despawn w.archetypes.archetypes w.meta e loc.archetypeId
        loc.index _ hcore hsrc hidx he rfl rfl
    by_cases hlast : loc.index =
        (w.archetypes.archetypes.getD loc.archetypeId default).entities.length - 1
    · rw [if_pos hlast]
      rw [if_pos hlast] at happly
      split
      next me hsw =>
        split
        next ml hms =>
          refine locWFProp_mk _ ?_ ?_
          · exact wfCoreProp_set_rows _ _ _ _ rfl rfl happly
          · intro kv hkv
            simp only [List.length_set]
            exact hmap kv hkv
        next hms =>
          refine locWFProp_mk _ ?_ ?_
          · exact happly
          · intro kv hkv
            simp only [List.length_set]
            exact hmap kv hkv
      next hsw =>
        refine locWFProp_mk _ ?_ ?_
        · exact happly
        · intro kv hkv
          simp only [List.length_set]
          exact hmap kv hkv
    · rw [if_neg hlast]
      rw [if_neg hlast] at happly
      have hget2 := get?_swapRemoveList
        (w.archetypes.archetypes.getD loc.archetypeId default).entities loc.index
        loc.index hidx (by omega)
      rw [if_pos rfl] at hget2
      have hgetv :
          (w.archetypes.archetypes.getD loc.archetypeId default).entities[
            (w.archetypes.archetypes.getD loc.archetypeId
              default).entities.length - 1]? =
          some ((w.archetypes.archetypes.getD loc.archetypeId default).entities.getD
            ((w.archetypes.archetypes.getD loc.archetypeId
              default).entities.length - 1) 0) := by
        rcases hx : (w.archetypes.archetypes.getD loc.archetypeId default).entities[
            (w.archetypes.archetypes.getD loc.archetypeId
              default).entities.length - 1]? with _ | v
        · rw [List.getElem?_eq_none_iff] at hx
          omega
        · rw [getD_eq_getElem?, hx]
          rfl
      rw [hgetv] at hget2
      rw [hget2]
      split
      next me hsw =>
        split
        next ml hms =>
          refine locWFProp_mk _ ?_ ?_
          · exact wfCoreProp_set_rows _ _ _ _ rfl rfl happly
          · intro kv hkv
            simp only [List.length_set]
            exact hmap kv hkv
        next hms =>
          refine locWFProp_mk _ ?_ ?_
          · exact happly
          · intro kv hkv
            simp only [List.length_set]
            exact hmap kv hkv
      next hsw =>
        refine locWFProp_mk _ ?_ ?_
        · exact happly
        · intro kv hkv
          simp only [List.length_set]
          exact hmap kv hkv

/-- `take_entity_data` only appends to the removed log and updates storages:
the archetype list and the stored locations are untouched. -/
theorem takeEntityData_skeleton (w : World) (arch : Archetype) (s : Slot)
    (e : Entity) (location : EntityLocation) :
    (takeEntityData w arch s e location).2.archetypes = w.archetypes ∧
    (takeEntityData w arch s e location).2.meta = w.meta := by
  rcases hk : w.kindStorage s.kind with _ | _ <;> simp [takeEntityData, hk]

/-- The `from_components` extraction loop inherits that skeleton invariance:
the archetype list and the stored locations are untouched. -/
theorem takeAllEntityData_skeleton (arch : Archetype) (e : Entity)
    (location : EntityLocation) :
    ∀ (slots : List Slot) (w : World),
      (takeAllEntityData w arch e location slots).2.archetypes = w.archetypes ∧
      (takeAllEntityData w arch e location slots).2.meta = w.meta
  | [], _ => ⟨rfl, rfl⟩
  | s :: rest, w => by
    have h1 := takeEntityData_skeleton w arch s e location
    have h2 := takeAllEntityData_skeleton arch e location rest
      (takeEntityData w arch s e location).2
    simp only [takeAllEntityData]
    exact ⟨h2.1.trans h1.1, h2.2.trans h1.2⟩

/-- The removed-log/sparse-cleanup fold of `remove_bundle_intersection`
touches only the removed log and storages: the archetype list and the stored
locations are untouched. -/
theorem removeLog_foldl_skeleton (oldArch : Archetype) (e : Entity) :
    ∀ (slots : List Slot) (w : World),
      ((slots.foldl (fun w s =>
        if oldArch.containsSlot s then
          let w := { w with removed := w.removed ++ [(s, e)] }
          if oldArch.getStorageType s = some StorageType.sparseSet then
            { w with storages := { w.storages with
                sparseSets := sparseSetsRemove w.storages.sparseSets s e } }
          else w
        else w) w).archetypes = w.archetypes ∧
       (slots.foldl (fun w s =>
        if oldArch.containsSlot s then
          let w := { w with removed := w.removed ++ [(s, e)] }
          if oldArch.getStorageType s = some StorageType.sparseSet then
            { w with storages := { w.storages with
                sparseSets := sparseSetsRemove w.storages.sparseSets s e } }
          else w
        else w) w).meta = w.meta)
  | [], _ => ⟨rfl, rfl⟩
  | s :: rest, w => by
    have h2 := removeLog_foldl_skeleton oldArch e rest
      (if oldArch.containsSlot s then
        let w := { w with removed := w.removed ++ [(s, e)] }
        if oldArch.getStorageType s = some StorageType.sparseSet then
          { w with storages := { w.storages with
              sparseSets := sparseSetsRemove w.storages.sparseSets s e } }
        else w
      else w)
    have hstep :
        ((if oldArch.containsSlot s then
            let w := { w with removed := w.removed ++ [(s, e)] }
            if oldArch.getStorageType s = some StorageType.sparseSet then
              { w with storages := { w.storages with
                  sparseSets := sparseSetsRemove w.storages.sparseSets s e } }
            else w
          else w).archetypes = w.archetypes ∧
         (if oldArch.containsSlot s then
            let w := { w with removed := w.removed ++ [(s, e)] }
            if oldArch.getStorageType s = some StorageType.sparseSet then
              { w with storages := { w.storages with
                  sparseSets := sparseSetsRemove w.storages.sparseSets s e } }
            else w
          else w).meta = w.meta) := by
      constructor <;> split_ifs <;> rfl
    simp only [List.foldl_cons]
    exact ⟨h2.1.trans hstep.1, h2.2.trans hstep.2⟩

/-- `add_bundle_to_archetype` preserves the invariant (it can only append a
fresh empty archetype) and, whenever the destination differs from the source,
the destination id names an existing archetype. -/
theorem addBundleToArchetype_wf (as : Archetypes) (st : Storages)
    (ks : Nat → StorageType) (aid : Nat) (b : BundleInfo)
    (meta : List (Option EntityLocation))
    (hcore : wfCoreProp as.archetypes meta)
    (hmap : ∀ kv ∈ as.archetypeIds, kv.2 < as.archetypes.length) :
    wfCoreProp (addBundleToArchetype as st ks aid b).2.1.archetypes meta ∧
    (∀ kv ∈ (addBundleToArchetype as st ks aid b).2.1.archetypeIds,
      kv.2 < (addBundleToArchetype as st ks aid b).2.1.archetypes.length) ∧
    ((addBundleToArchetype as st ks aid b).1.archetypeId ≠ aid →
      (addBundleToArchetype as st ks aid b).1.archetypeId <
        (addBundleToArchetype as st ks aid b).2.1.archetypes.length) := by
  simp only [addBundleToArchetype]
  by_cases hc : ((addBundleClassify (as.archetypes.getD aid default) ks
      b.relationIds st.sparseSets).2.1.isEmpty &&
      (addBundleClassify (as.archetypes.getD aid default) ks
        b.relationIds st.sparseSets).2.2.1.isEmpty) = true
  · rw [if_pos hc]
    exact ⟨hcore, hmap, fun hne => absurd rfl hne⟩
  · rw [if_neg hc]
    refine ⟨(locWFProp_getIdOrInsert as meta _ _ _ hcore hmap).1,
      (locWFProp_getIdOrInsert as meta _ _ _ hcore hmap).2.1,
      fun _ => (locWFProp_getIdOrInsert as meta _ _ _ hcore hmap).2.2.1⟩

/-- `remove_bundle_from_archetype` preserves the invariant (it can only
append a fresh empty archetype) and a returned destination id names an
existing archetype. -/
theorem removeBundleFromArchetype_wf (as : Archetypes) (st : Storages)
    (ks : Nat → StorageType) (aid : Nat) (b : BundleInfo) (inter : Bool)
    (meta : List (Option EntityLocation))
    (hcore : wfCoreProp as.archetypes meta)
    (hmap : ∀ kv ∈ as.archetypeIds, kv.2 < as.archetypes.length) :
    wfCoreProp (removeBundleFromArchetype as st ks aid b inter).2.1.archetypes meta ∧
    (∀ kv ∈ (removeBundleFromArchetype as st ks aid b inter).2.1.archetypeIds,
      kv.2 < (removeBundleFromArchetype as st ks aid b inter).2.1.archetypes.length) ∧
    (∀ nid, (removeBundleFromArchetype as st ks aid b inter).1 = some nid →
      nid < (removeBundleFromArchetype as st ks aid b inter).2.1.archetypes.length) := by
  simp only [removeBundleFromArchetype]
  rcases hcl : removeBundleClassify (as.archetypes.getD aid default) ks inter
      b.relationIds with _ | removed
  · simp only [hcl]
    refine ⟨hcore, hmap, ?_⟩
    intro nid h
    exact Option.noConfusion h
  · simp only [hcl]
    refine ⟨(locWFProp_getIdOrInsert as meta _ _ _ hcore hmap).1,
      (locWFProp_getIdOrInsert as meta _ _ _ hcore hmap).2.1, ?_⟩
    intro nid h
    have hh := Option.some.inj h
    rw [← hh]
    exact (locWFProp_getIdOrInsert as meta _ _ _ hcore hmap).2.2.1

/-- `insert_bundle` preserves the location invariant: either the archetype is
unchanged (only component values are written) or the entity undergoes the
structural move to the superset archetype. -/
theorem locWFProp_insertBundle (w : World) (e : Entity) (loc : EntityLocation)
    (b : BundleInfo) (values : List Val)
    (hwf : locWFProp w) (hloc : w.meta.getD e none = some loc) :
    locWFProp (insertBundle w e loc b values).2 := by
  obtain ⟨hcore, hmap⟩ := hwf
  obtain ⟨h1, h2, h3⟩ := addBundleToArchetype_wf w.archetypes w.storages
    w.kindStorage loc.archetypeId b w.meta hcore hmap
  simp only [insertBundle]
  by_cases hc : (addBundleToArchetype w.archetypes w.storages w.kindStorage
      loc.archetypeId b).1.archetypeId = loc.archetypeId
  · rw [if_pos hc]
    exact ⟨h1, h2⟩
  · rw [if_neg hc]
    have hsm := locWFProp_structuralMove
      { w with
        archetypes := (addBundleToArchetype w.archetypes w.storages
          w.kindStorage loc.archetypeId b).2.1,
        storages := (addBundleToArchetype w.archetypes w.storages
          w.kindStorage loc.archetypeId b).2.2 }
      e loc
      (addBundleToArchetype w.archetypes w.storages w.kindStorage
        loc.archetypeId b).1.archetypeId
      MoveKind.superset ⟨h1, h2⟩ hloc (h3 hc) hc
    exact ⟨hsm.1, hsm.2⟩

/-- `remove_bundle` preserves the location invariant: a missing slot or an
unchanged archetype leaves the structure alone; otherwise the values are
extracted (skeleton-invariant) and the entity undergoes the structural move. -/
theorem locWFProp_removeBundle (w : World) (e : Entity) (loc : EntityLocation)
    (b : BundleInfo)
    (hwf : locWFProp w) (hloc : w.meta.getD e none = some loc) :
    locWFProp (removeBundle w e loc b).2.2 := by
  obtain ⟨hcore, hmap⟩ := hwf
  obtain ⟨h1, h2, h3⟩ := removeBundleFromArchetype_wf w.archetypes w.storages
    w.kindStorage loc.archetypeId b false w.meta hcore hmap
  simp only [removeBundle]
  rcases hres : (removeBundleFromArchetype w.archetypes w.storages w.kindStorage
      loc.archetypeId b false).1 with _ | nid
  · simp only [hres]
    exact ⟨h1, h2⟩
  · simp only [hres]
    by_cases hc : nid = loc.archetypeId
    · rw [if_pos hc]
      exact ⟨h1, h2⟩
    · rw [if_neg hc]
      have hsk := takeAllEntityData_skeleton
        ((removeBundleFromArchetype w.archetypes w.storages w.kindStorage
          loc.archetypeId b false).2.1.archetypes.getD loc.archetypeId default)
        e loc b.relationIds
        { w with
          archetypes := (removeBundleFromArchetype w.archetypes w.storages
            w.kindStorage loc.archetypeId b false).2.1,
          storages := (removeBundleFromArchetype w.archetypes w.storages
            w.kindStorage loc.archetypeId b false).2.2 }
      have hwf2 : locWFProp (takeAllEntityData
          { w with
            archetypes := (removeBundleFromArchetype w.archetypes w.storages
              w.kindStorage loc.archetypeId b false).2.1,
            storages := (removeBundleFromArchetype w.archetypes w.storages
              w.kindStorage loc.archetypeId b false).2.2 }
          ((removeBundleFromArchetype w.archetypes w.storages w.kindStorage
            loc.archetypeId b false).2.1.archetypes.getD loc.archetypeId default)
          e loc b.relationIds).2 := by
        refine ⟨?_, ?_⟩
        · rw [hsk.1, hsk.2]
          exact h1
        · rw [hsk.1]
          exact h2
      have hloc2 : (takeAllEntityData
          { w with
            archetypes := (removeBundleFromArchetype w.archetypes w.storages
              w.kindStorage loc.archetypeId b false).2.1,
            storages := (removeBundleFromArchetype w.archetypes w.storages
              w.kindStorage loc.archetypeId b false).2.2 }
          ((removeBundleFromArchetype w.archetypes w.storages w.kindStorage
            loc.archetypeId b false).2.1.archetypes.getD loc.archetypeId default)
          e loc b.relationIds).2.meta.getD e none = some loc := by
        rw [hsk.2]
        exact hloc
      have hdst2 : nid < (takeAllEntityData
          { w with
            archetypes := (removeBundleFromArchetype w.archetypes w.storages
              w.kindStorage loc.archetypeId b false).2.1,
            storages := (removeBundleFromArchetype w.archetypes w.storages
              w.kindStorage loc.archetypeId b false).2.2 }
          ((removeBundleFromArchetype w.archetypes w.storages w.kindStorage
            loc.archetypeId b false).2.1.archetypes.getD loc.archetypeId default)
          e loc b.relationIds).2.archetypes.archetypes.length := by
        rw [hsk.1]
        exact h3 nid hres
      have hsm := locWFProp_structuralMove _ e loc nid MoveKind.forget
        hwf2 hloc2 hdst2 hc
      exact ⟨hsm.1, hsm.2⟩

/-- Transfer of the invariant and the structural-move preconditions along a
skeleton-invariant world update (same archetype list, same stored
locations). -/
theorem skeleton_transfer (w w' : World) (e : Entity) (loc : EntityLocation)
    (nid : Nat)
    (ha : w'.archetypes = w.archetypes) (hm : w'.meta = w.meta)
    (hwf : locWFProp w) (hloc : w.meta.getD e none = some loc)
    (hdst : nid < w.archetypes.archetypes.length) :
    locWFProp w' ∧ w'.meta.getD e none = some loc ∧
    nid < w'.archetypes.archetypes.length := by
  refine ⟨⟨?_, ?_⟩, ?_, ?_⟩
  · rw [ha, hm]
    exact hwf.1
  · rw [ha]
    exact hwf.2
  · rw [hm]
    exact hloc
  · rw [ha]
    exact hdst

/-- `remove_bundle_intersection` preserves the location invariant: a
destination equal to the source leaves the structure alone; otherwise the
overlap is logged and sparse-removed (skeleton-invariant) and the entity
undergoes the structural move. -/
theorem locWFProp_removeBundleIntersection (w : World) (e : Entity)
    (loc : EntityLocation) (b : BundleInfo)
    (hwf : locWFProp w) (hloc : w.meta.getD e none = some loc) :
    locWFProp (removeBundleIntersection w e loc b).2 := by
  obtain ⟨hcore, hmap⟩ := hwf
  obtain ⟨h1, h2, h3⟩ := removeBundleFromArchetype_wf w.archetypes w.storages
    w.kindStorage loc.archetypeId b true w.meta hcore hmap
  simp only [removeBundleIntersection]
  rcases hres : (removeBundleFromArchetype w.archetypes w.storages w.kindStorage
      loc.archetypeId b true).1 with _ | nid
  · simp only [hres]
    exact ⟨h1, h2⟩
  · simp only [hres]
    by_cases hc : nid = loc.archetypeId
    · rw [if_pos hc]
      exact ⟨h1, h2⟩
    · rw [if_neg hc]
      have hsk := removeLog_foldl_skeleton
        ((removeBundleFromArchetype w.archetypes w.storages w.kindStorage
          loc.archetypeId b true).2.1.archetypes.getD loc.archetypeId default)
        e b.relationIds
        { w with
          archetypes := (removeBundleFromArchetype w.archetypes w.storages
            w.kindStorage loc.archetypeId b true).2.1,
          storages := (removeBundleFromArchetype w.archetypes w.storages
            w.kindStorage loc.archetypeId b true).2.2 }
      obtain ⟨hwf2, hloc2, hdst2⟩ := skeleton_transfer _ _ e loc nid
        hsk.1 hsk.2 ⟨h1, h2⟩ hloc (h3 nid hres)
      have hsm := locWFProp_structuralMove _ e loc nid MoveKind.drop
        hwf2 hloc2 hdst2 hc
      exact ⟨hsm.1, hsm.2⟩

/-- C1: for every archetype `A` and every index `i` in
`[0, A.entities.len())`, the stored entity location of `A.entities[i]` is
`(A.id, i)`, and every stored location points back at its entity; this
round-trip invariant (the executable check `locWF`) is preserved by every
public mutation — `insert_bundle`, `remove_bundle`,
`remove_bundle_intersection` and `despawn` — including the swapped-entity
location fixups those operations perform. -/
theorem entityLocation_roundtrip_preserved (w : World) (e : Entity)
    (loc : EntityLocation) (b : BundleInfo) (values : List Val)
    (h : locWF w = true) (hloc : w.meta.getD e none = some loc) :
    locWF (insertBundle w e loc b values).2 = true ∧
    locWF (removeBundle w e loc b).2.2 = true ∧
    locWF (removeBundleIntersection w e loc b).2 = true ∧
    locWF (despawn w e) = true := by
  rw [locWF_iff] at h
  refine ⟨?_, ?_, ?_, ?_⟩ <;> rw [locWF_iff]
  · exact locWFProp_insertBundle w e loc b values h hloc
  · exact locWFProp_removeBundle w e loc b h hloc
  · exact locWFProp_removeBundleIntersection w e loc b h hloc
  · exact locWFProp_despawn w e h

/-- The round-trip preservation theorem applied to the concrete two-archetype
world: entity 0 lives at `(1, 0)` and the invariant survives all four
mutations with the one-slot bundle `(1, none)`. -/
theorem entityLocation_roundtrip_preserved_witness :
    locWF witnessWorld = true ∧
    witnessWorld.meta.getD 0 none = some ⟨1, 0⟩ ∧
    (locWF (insertBundle witnessWorld 0 ⟨1, 0⟩
        ⟨[⟨1, none⟩], [StorageType.table]⟩ [7]).2 = true ∧
     locWF (removeBundle witnessWorld 0 ⟨1, 0⟩
        ⟨[⟨1, none⟩], [StorageType.table]⟩).2.2 = true ∧
     locWF (removeBundleIntersection witnessWorld 0 ⟨1, 0⟩
        ⟨[⟨1, none⟩], [StorageType.table]⟩).2 = true ∧
     locWF (despawn witnessWorld 0) = true) :=
  ⟨by decide, by decide,
   entityLocation_roundtrip_preserved witnessWorld 0 ⟨1, 0⟩
     ⟨[⟨1, none⟩], [StorageType.table]⟩ [7] (by decide) (by decide)⟩

end BevyEcs
